import Mathlib

/-
Verification of LightGBM's ranking objectives
(src/objective/rank_objective.hpp: RankingObjective, LambdarankNDCG,
RankXENDCG).

Modelling conventions:
- C++ doubles and floats are modelled as rationals (exact arithmetic);
  score_t casts are the identity.
- Labels (label_t, validated by DCGCalculator::CheckLabel to be
  non-negative integers) are modelled as naturals, so the
  static_cast<int> in the kernels is the identity.
- External collaborators that live outside this repository's sources
  (std::exp, std::log2, DCGCalculator's discount / max-DCG,
  Common::Softmax, Random) are abstracted as function parameters or
  structure fields; theorems state any contract they need as
  hypotheses.
- Machine int16_t storage is modelled by an explicit wrap modulo 2^16.
-/

namespace RankObj

/-- Sentinel kMinScore from LightGBM's meta.h:
-std::numeric_limits of score_t infinity.  Only exact equality with it is
tested by the kernel; it is modelled as a rational below every
representable double. -/
def kMinScore : ℚ := -(2 ^ 1075)

/-- Constant kEpsilon from LightGBM's meta.h (1e-15f), idealized as the
rational 10^-15. -/
def kEpsilon : ℚ := 1 / 10 ^ 15

/-- Conversion of a query-local document index (a non-negative int) to its
int16_t stored value: wrap modulo 2^16 into the signed window
[-2^15, 2^15). -/
def toInt16 (n : ℕ) : ℤ := ((n : ℤ) + 2 ^ 15) % 2 ^ 16 - 2 ^ 15

/-- State of the RankingObjective base class (rank_objective.hpp lines
25-151) after Init: sampling threshold, labels, optional weights, query
boundaries, and the flattened inferior-candidate index with its
per-document boundaries. -/
structure RankingCtx where
  sample_cnt_ : ℤ
  num_queries_ : ℕ
  label_ : List ℕ
  weights_ : Option (List ℚ)
  query_boundaries_ : List ℕ
  sample_candidates_ : List ℤ
  sample_candidates_boundaries_ : List ℕ

/-- State of LambdarankNDCG (lines 155-394), flattening the inherited
RankingObjective fields.  discount models DCGCalculator::GetDiscount and
log2 models std::log2, both external. -/
structure LambdaCtx extends RankingCtx where
  sigmoid_ : ℚ
  norm_ : Bool
  label_gain_ : List ℚ
  inverse_max_dcgs_ : List ℚ
  sigmoid_table_ : List ℚ
  sigmoid_bins : ℕ
  min_sigmoid_input_ : ℚ
  max_sigmoid_input_ : ℚ
  sigmoid_table_idx_factor_ : ℚ
  discount : ℕ → ℚ
  log2 : ℚ → ℚ

/-- LambdarankNDCG::GetSigmoid (lines 343-354).  The C++
static_cast of the positive in-range product to size_t truncates, which
for a non-negative value is the floor. -/
def GetSigmoid (st : LambdaCtx) (score : ℚ) : ℚ :=
  if score ≤ st.min_sigmoid_input_ then st.sigmoid_table_.getD 0 0
  else if score ≥ st.max_sigmoid_input_ then
    st.sigmoid_table_.getD (st.sigmoid_bins - 1) 0
  else
    st.sigmoid_table_.getD
      ((⌊(score - st.min_sigmoid_input_) * st.sigmoid_table_idx_factor_⌋).toNat) 0

/-- LambdarankNDCG::ConstructSigmoidTable (lines 356-369).  expFn models
std::exp.  min_sigmoid_input_ is read before being overwritten, so with
the field default -50 the new lower bound is -50 / sigmoid_ / 2. -/
def ConstructSigmoidTable (expFn : ℚ → ℚ) (st : LambdaCtx) : LambdaCtx :=
  let minI := st.min_sigmoid_input_ / st.sigmoid_ / 2
  let maxI := -minI
  let factor := (st.sigmoid_bins : ℚ) / (maxI - minI)
  { st with
    min_sigmoid_input_ := minI
    max_sigmoid_input_ := maxI
    sigmoid_table_idx_factor_ := factor
    sigmoid_table_ :=
      (List.range st.sigmoid_bins).map
        (fun (i : ℕ) => 1 / (1 + expFn (((i : ℚ) / factor + minI) * st.sigmoid_))) }

/-- LambdarankNDCG constructor (lines 157-171) together with the field
default initializers (lines 386-393): sigmoid table cleared,
inverse_max_dcgs_ cleared, bins 1024*1024, bounds -50 and 50.
sigmoid_table_idx_factor_ is uninitialized in C++ before
ConstructSigmoidTable runs; it is modelled as 0.  The constructor aborts
(Log::Fatal) unless 0 < sigmoid; theorems carry that as a hypothesis. -/
def mkLambdarankNDCG (base : RankingCtx) (sigma : ℚ) (norm : Bool)
    (label_gain : List ℚ) (disc : ℕ → ℚ) (lg2 : ℚ → ℚ) : LambdaCtx :=
  { toRankingCtx := base
    sigmoid_ := sigma
    norm_ := norm
    label_gain_ := label_gain
    inverse_max_dcgs_ := []
    sigmoid_table_ := []
    sigmoid_bins := 1024 * 1024
    min_sigmoid_input_ := -50
    max_sigmoid_input_ := 50
    sigmoid_table_idx_factor_ := 0
    discount := disc
    log2 := lg2 }

/-- Concrete empty base state, used to instantiate witnesses. -/
def baseCtx0 : RankingCtx :=
  { sample_cnt_ := 0
    num_queries_ := 0
    label_ := []
    weights_ := none
    query_boundaries_ := []
    sample_candidates_ := []
    sample_candidates_boundaries_ := [] }

/-- Helper: the state constructed by the Lambdarank constructor followed by
ConstructSigmoidTable, as Init performs (line 192). -/
def lambdarankInitState (expFn : ℚ → ℚ) (base : RankingCtx) (sigma : ℚ)
    (norm : Bool) (label_gain : List ℚ) (disc : ℕ → ℚ) (lg2 : ℚ → ℚ) : LambdaCtx :=
  ConstructSigmoidTable expFn (mkLambdarankNDCG base sigma norm label_gain disc lg2)

/-- RankingObjective::Init candidate construction for one document (lines
54-65): the pushed candidate indices for document i of a query with labels
cur_label are exactly the j in increasing order with
not (i = j or cur_label[i] <= cur_label[j]). -/
def inferiorCandidates (cur_label : List ℕ) (cnt : ℕ) (i : ℕ) : List ℕ :=
  (List.range cnt).filter
    (fun j => decide (¬ (i = j ∨ cur_label.getD i 0 ≤ cur_label.getD j 0)))

/-- Values as stored by line 60: sample_candidates_ is a vector of int16_t,
so each pushed index undergoes the int16_t conversion. -/
def storedCandidates (cur_label : List ℕ) (cnt : ℕ) (i : ℕ) : List ℤ :=
  (inferiorCandidates cur_label cnt i).map toInt16

/-- Concrete query of size 32768: 32767 documents with label 0 followed by
one document with label 1. -/
def bigQueryLabels : List ℕ := List.replicate 32767 0 ++ [1]

/-- RankingObjective::Sample (lines 89-112).  rng models the external
Random::Sample utility (uniform sampling without replacement): rng n k is
the list of drawn positions in [0, n).  The C++ method returns false and
leaves the output untouched when sampling is disabled or the query is not
larger than the threshold; that is modelled by returning none. -/
def Sample (ctx : RankingCtx) (rng : ℕ → ℕ → List ℕ) (offset cnt : ℕ) :
    Option (List (List ℤ)) :=
  if ctx.sample_cnt_ ≤ 0 ∨ (cnt : ℤ) ≤ ctx.sample_cnt_ then none
  else
    some ((List.range cnt).map (fun i =>
      let s := ctx.sample_candidates_boundaries_.getD (offset + i) 0
      let e := ctx.sample_candidates_boundaries_.getD (offset + i + 1) 0
      if ((e - s : ℕ) : ℤ) ≤ ctx.sample_cnt_ then
        (List.range (e - s)).map (fun j => ctx.sample_candidates_.getD (s + j) 0)
      else
        (rng (e - s) ctx.sample_cnt_.toNat).map
          (fun j => ctx.sample_candidates_.getD (s + j) 0)))

/-- Inputs fixed over one invocation of
LambdarankNDCG::GetGradientsForOneQueryInner (lines 195-323): objective
state, the template parameter sample, query id, query offset and size,
the sampled candidate lists, and the query's label and score slices. -/
structure PairEnv where
  st : LambdaCtx
  sample : Bool
  query_id : ℕ
  offset : ℕ
  cnt : ℕ
  sample_pair : List (List ℤ)
  label : List ℕ
  score : List ℚ

/-- Sorted indices by descending score (lines 209-215): std::stable_sort
with comparator score[a] > score[b] is stable insertion sort with the
total preorder score[b] <= score[a]; ties keep original order in both. -/
def PairEnv.sortedIdx (e : PairEnv) : List ℕ :=
  (List.range e.cnt).insertionSort (fun a b => e.score.getD b 0 ≤ e.score.getD a 0)

/-- Inverse permutation of sortedIdx built in lines 216-222 (used only
when sampling), stored as int16_t values. -/
def PairEnv.sortedMapper (e : PairEnv) : List ℤ :=
  (List.range e.cnt).foldl
    (fun m i => m.set (e.sortedIdx.getD i 0) (toInt16 i)) (List.replicate e.cnt 0)

/-- Line 202: inverse max DCG of the current query. -/
def PairEnv.imd (e : PairEnv) : ℚ := e.st.inverse_max_dcgs_.getD e.query_id 0

def PairEnv.best_score (e : PairEnv) : ℚ := e.score.getD (e.sortedIdx.getD 0 0) 0

/-- Lines 225-228: step one rank up when the very last sorted document's
score is the sentinel. -/
def PairEnv.worst_idx (e : PairEnv) : ℕ :=
  if 0 < e.cnt - 1 ∧ e.score.getD (e.sortedIdx.getD (e.cnt - 1) 0) 0 = kMinScore
  then e.cnt - 1 - 1 else e.cnt - 1

def PairEnv.worst_score (e : PairEnv) : ℚ :=
  e.score.getD (e.sortedIdx.getD e.worst_idx 0) 0

/-- Line 233: document index at sorted position i. -/
def PairEnv.high (e : PairEnv) (i : ℕ) : ℕ := e.sortedIdx.getD i 0

/-- Lines 255-259: sorted position of the j-th inner-loop partner.  In
sampled mode the candidate's stored int16 is looked up in sorted_mapper
(a negative stored int16, possible only on queries beyond the int16
range, indexes out of bounds in C++; the model clamps by toNat). -/
def PairEnv.curJ (e : PairEnv) (i j : ℕ) : ℕ :=
  if e.sample then
    (e.sortedMapper.getD ((e.sample_pair.getD (e.high i) []).getD j 0).toNat 0).toNat
  else j

/-- Line 266: document index of the low side of the pair. -/
def PairEnv.low (e : PairEnv) (i j : ℕ) : ℕ := e.sortedIdx.getD (e.curJ i j) 0

/-- Lines 251-254: inner loop trip count. -/
def PairEnv.loopCnt (e : PairEnv) (i : ℕ) : ℕ :=
  if e.sample then (e.sample_pair.getD (e.high i) []).length else e.cnt

/-- Recovery factor for sampled pairs (lines 243-250): number of inferior
candidates of the high document (a boundary difference, non-negative by
construction) over the number of sampled candidates. -/
def PairEnv.factor (e : PairEnv) (i : ℕ) : ℚ :=
  ((e.st.sample_candidates_boundaries_.getD (e.offset + e.high i + 1) 0
      - e.st.sample_candidates_boundaries_.getD (e.offset + e.high i) 0 : ℕ) : ℚ)
    / ((e.sample_pair.getD (e.high i) []).length : ℚ)

/-- Pair retention: lines 260-265 (skip the same sorted position when
unsampled) and lines 269-272 (keep only pairs with strictly larger high
label and a non-sentinel low score). -/
def PairEnv.retained (e : PairEnv) (i j : ℕ) : Prop :=
  (e.sample = true ∨ i ≠ e.curJ i j)
  ∧ ¬ (e.label.getD (e.high i) 0 ≤ e.label.getD (e.low i j) 0
      ∨ e.score.getD (e.low i j) 0 = kMinScore)

instance (e : PairEnv) (i j : ℕ) : Decidable (e.retained i j) := by
  unfold PairEnv.retained
  infer_instance

/-- Delta NDCG of the pair at sorted positions (i, curJ i j): lines
274-287.  The float literal 0.01f is idealized as 1/100. -/
def PairEnv.deltaPairNDCG (e : PairEnv) (i j : ℕ) : ℚ :=
  let delta_score := e.score.getD (e.high i) 0 - e.score.getD (e.low i j) 0
  let dcg_gap := e.st.label_gain_.getD (e.label.getD (e.high i) 0) 0
      - e.st.label_gain_.getD (e.label.getD (e.low i j) 0) 0
  let paired_discount := |e.st.discount i - e.st.discount (e.curJ i j)|
  let d := dcg_gap * paired_discount * e.imd
  if e.st.norm_ = true ∧ e.label.getD (e.high i) 0 ≠ e.label.getD (e.low i j) 0
      ∧ e.best_score ≠ e.worst_score
  then d / (1 / 100 + |delta_score|) else d

/-- Lambda contribution of one retained pair (lines 289-292), multiplied
by the recovery factor in sampled mode (lines 294-297). -/
def PairEnv.pLambda (e : PairEnv) (i j : ℕ) : ℚ :=
  let p := GetSigmoid e.st (e.score.getD (e.high i) 0 - e.score.getD (e.low i j) 0)
      * (-e.st.sigmoid_ * e.deltaPairNDCG i j)
  if e.sample then p * e.factor i else p

/-- Hessian contribution of one retained pair (lines 290-297). -/
def PairEnv.pHessian (e : PairEnv) (i j : ℕ) : ℚ :=
  let s := GetSigmoid e.st (e.score.getD (e.high i) 0 - e.score.getD (e.low i j) 0)
  let p := s * (1 - s) * (e.st.sigmoid_ * e.st.sigmoid_ * e.deltaPairNDCG i j)
  if e.sample then p * e.factor i else p

/-- Mutable state of the pair accumulation loops: the output buffers, the
query-wide sum_lambdas, and the per-high-document accumulators. -/
structure PairAcc where
  lambdas : List ℚ
  hessians : List ℚ
  sum_lambdas : ℚ
  high_sum_lambda : ℚ
  high_sum_hessian : ℚ

/-- Body of the inner pair loop (lines 255-304) for partner index j. -/
def innerStep (e : PairEnv) (i : ℕ) (acc : PairAcc) (j : ℕ) : PairAcc :=
  if e.retained i j then
    { lambdas := acc.lambdas.set (e.low i j)
        (acc.lambdas.getD (e.low i j) 0 - e.pLambda i j)
      hessians := acc.hessians.set (e.low i j)
        (acc.hessians.getD (e.low i j) 0 + e.pHessian i j)
      sum_lambdas := acc.sum_lambdas - 2 * e.pLambda i j
      high_sum_lambda := acc.high_sum_lambda + e.pLambda i j
      high_sum_hessian := acc.high_sum_hessian + e.pHessian i j }
  else acc

/-- Body of the outer loop (lines 232-308) for sorted position i: skip
sentinel-scored high documents, reset the per-document accumulators, run
the inner loop, then flush the accumulators onto the high document. -/
def outerStep (e : PairEnv) (acc : PairAcc) (i : ℕ) : PairAcc :=
  if e.score.getD (e.high i) 0 = kMinScore then acc
  else
    let acc1 := (List.range (e.loopCnt i)).foldl (innerStep e i)
      { acc with high_sum_lambda := 0, high_sum_hessian := 0 }
    { acc1 with
      lambdas := acc1.lambdas.set (e.high i)
        (acc1.lambdas.getD (e.high i) 0 + acc1.high_sum_lambda)
      hessians := acc1.hessians.set (e.high i)
        (acc1.hessians.getD (e.high i) 0 + acc1.high_sum_hessian) }

/-- Zero initialization (lines 203-207) followed by the full pair
accumulation (lines 230-308). -/
def pairPhase (e : PairEnv) : PairAcc :=
  (List.range e.cnt).foldl (outerStep e)
    { lambdas := List.replicate e.cnt 0
      hessians := List.replicate e.cnt 0
      sum_lambdas := 0
      high_sum_lambda := 0
      high_sum_hessian := 0 }

/-- Normalization of the accumulated gradients (lines 309-315). -/
def normPhase (st : LambdaCtx) (lambdas hessians : List ℚ) (sum_lambdas : ℚ) :
    List ℚ × List ℚ :=
  if st.norm_ = true ∧ 0 < sum_lambdas then
    let norm_factor := st.log2 (1 + sum_lambdas) / sum_lambdas
    (lambdas.map (· * norm_factor), hessians.map (· * norm_factor))
  else (lambdas, hessians)

/-- Weight multiplication (lines 316-322). -/
def weightPhase (st : LambdaCtx) (offset cnt : ℕ) (lambdas hessians : List ℚ) :
    List ℚ × List ℚ :=
  match st.weights_ with
  | none => (lambdas, hessians)
  | some w =>
    ((List.range cnt).map (fun i => lambdas.getD i 0 * w.getD (offset + i) 0),
     (List.range cnt).map (fun i => hessians.getD i 0 * w.getD (offset + i) 0))

/-- LambdarankNDCG::GetGradientsForOneQueryInner (lines 195-323): pair
accumulation, then normalization, then weights. -/
def lambdarankGetGradientsForOneQueryInner (st : LambdaCtx) (sample : Bool)
    (query_id offset cnt : ℕ) (sample_pair : List (List ℤ))
    (label : List ℕ) (score : List ℚ) : List ℚ × List ℚ :=
  let e : PairEnv := ⟨st, sample, query_id, offset, cnt, sample_pair, label, score⟩
  let acc := pairPhase e
  let p := normPhase st acc.lambdas acc.hessians acc.sum_lambdas
  weightPhase st offset cnt p.1 p.2

/-- Unsampled overload (lines 325-332). -/
def lambdarankGetGradientsForOneQueryU (st : LambdaCtx)
    (query_id offset cnt : ℕ) (label : List ℕ) (score : List ℚ) : List ℚ × List ℚ :=
  lambdarankGetGradientsForOneQueryInner st false query_id offset cnt [] label score

/-- Sampled overload (lines 334-341). -/
def lambdarankGetGradientsForOneQueryS (st : LambdaCtx)
    (query_id offset cnt : ℕ) (sample_pair : List (List ℤ))
    (label : List ℕ) (score : List ℚ) : List ℚ × List ℚ :=
  lambdarankGetGradientsForOneQueryInner st true query_id offset cnt sample_pair label score

/-- Invariant: an accumulator with all-zero buffers, zero sum and zero
per-document accumulators. -/
def ZAcc (e : PairEnv) (acc : PairAcc) : Prop :=
  acc.lambdas = List.replicate e.cnt 0 ∧ acc.hessians = List.replicate e.cnt 0
  ∧ acc.sum_lambdas = 0 ∧ acc.high_sum_lambda = 0 ∧ acc.high_sum_hessian = 0

/-- Concrete objective state for the C8 witness: stored inverse max DCG of
query 0 is 0. -/
def wCtx8 : LambdaCtx :=
  { toRankingCtx := baseCtx0
    sigmoid_ := 1
    norm_ := true
    label_gain_ := [0, 1]
    inverse_max_dcgs_ := [0]
    sigmoid_table_ := [1/2]
    sigmoid_bins := 1
    min_sigmoid_input_ := -25
    max_sigmoid_input_ := 25
    sigmoid_table_idx_factor_ := 1/25
    discount := fun _ => 1
    log2 := fun _ => 0 }

/-- Specification-side total: the sum over all retained pairs of twice the
absolute lambda contribution (spec section 4.2 step 4). -/
def sumLambdasSpec (e : PairEnv) : ℚ :=
  ((List.range e.cnt).map
    (fun i => if e.score.getD (e.high i) 0 = kMinScore then 0
      else ((List.range (e.loopCnt i)).map
        (fun j => if e.retained i j then 2 * |e.pLambda i j| else 0)).sum)).sum

/-- Per-example weight multiplier applied by the final loop of the kernel
(lines 316-322): 1 when no weights are present. -/
def weightFactor (st : LambdaCtx) (offset k : ℕ) : ℚ :=
  match st.weights_ with
  | none => 1
  | some w => w.getD (offset + k) 0

/-- Concrete objective state for the C3 witness. -/
def wCtx3 : LambdaCtx :=
  { toRankingCtx := baseCtx0
    sigmoid_ := 1
    norm_ := true
    label_gain_ := [0, 1]
    inverse_max_dcgs_ := [1]
    sigmoid_table_ := [1/2]
    sigmoid_bins := 1
    min_sigmoid_input_ := -25
    max_sigmoid_input_ := 25
    sigmoid_table_idx_factor_ := 1/25
    discount := fun n => 1 / ((n : ℚ) + 1)
    log2 := fun _ => 1 }

/-- Deterministic stand-in for the external sampling utility, used only to
instantiate witnesses: draws the first k positions. -/
def wRng : ℕ → ℕ → List ℕ := fun _ k => List.range k

/-- Concrete base state for the C4 witness: threshold 1, one query of two
documents, document 0 has two inferior candidates and document 1 none. -/
def wCtx4 : RankingCtx :=
  { sample_cnt_ := 1
    num_queries_ := 1
    label_ := [1, 0]
    weights_ := none
    query_boundaries_ := [0, 2]
    sample_candidates_ := [5, 7]
    sample_candidates_boundaries_ := [0, 2, 2] }

/-- RankXENDCG::phi (lines 490-492): Common::Pow(2, int(label)) - gamma,
i.e. 2^label - gamma for the validated non-negative integer labels. -/
def phi (l : ℕ) (g : ℚ) : ℚ := 2 ^ l - g

/-- RankXENDCG::GetGradientsForOneQueryInner (lines 409-470).  softmax
models Common::Softmax (external numerics utility); gammas models the
per-document rand_.NextFloat() draws (lines 420-423).  The template
parameter sample and the sample_pair argument appear in the C++
signature but the body never reads them.  lambdas0 and hessians0 are the
contents of the caller's output-buffer slice on entry; the early return
at lines 430-432 leaves them untouched. -/
def xendcgGetGradientsForOneQueryInner (softmax : List ℚ → ℕ → List ℚ)
    (wts : Option (List ℚ)) (gammas : List ℚ) (sample : Bool)
    (query_id offset cnt : ℕ) (sample_pair : List (List ℤ))
    (label : List ℕ) (score : List ℚ)
    (lambdas0 hessians0 : List ℚ) : List ℚ × List ℚ :=
  let rho := softmax score cnt
  let sum_labels :=
    ((List.range cnt).map (fun i => phi (label.getD i 0) (gammas.getD i 0))).sum
  if |sum_labels| < kEpsilon then (lambdas0, hessians0)
  else
    let L1s := (List.range cnt).map
      (fun i => -phi (label.getD i 0) (gammas.getD i 0) / sum_labels + rho.getD i 0)
    let L2s := (List.range cnt).map
      (fun i => ((List.range cnt).map
        (fun j => if i = j then 0 else L1s.getD j 0 / (1 - rho.getD j 0))).sum)
    let L3s := (List.range cnt).map
      (fun i => ((List.range cnt).map
        (fun j => if i = j then 0
          else rho.getD j 0 * L2s.getD j 0 / (1 - rho.getD j 0))).sum)
    let lambdas := (List.range cnt).map
      (fun i => L1s.getD i 0 + rho.getD i 0 * L2s.getD i 0
        + rho.getD i 0 * L3s.getD i 0)
    let hessians := (List.range cnt).map
      (fun i => rho.getD i 0 * (1 - rho.getD i 0))
    match wts with
    | none => (lambdas, hessians)
    | some w =>
      ((List.range cnt).map (fun i => lambdas.getD i 0 * w.getD (offset + i) 0),
       (List.range cnt).map (fun i => hessians.getD i 0 * w.getD (offset + i) 0))

/-- RankXENDCG unsampled overload (lines 472-479). -/
def xendcgGetGradientsForOneQueryU (softmax : List ℚ → ℕ → List ℚ)
    (wts : Option (List ℚ)) (gammas : List ℚ) (query_id offset cnt : ℕ)
    (label : List ℕ) (score : List ℚ)
    (lambdas0 hessians0 : List ℚ) : List ℚ × List ℚ :=
  xendcgGetGradientsForOneQueryInner softmax wts gammas false query_id offset cnt
    [] label score lambdas0 hessians0

/-- RankXENDCG sampled overload (lines 481-488). -/
def xendcgGetGradientsForOneQueryS (softmax : List ℚ → ℕ → List ℚ)
    (wts : Option (List ℚ)) (gammas : List ℚ) (query_id offset cnt : ℕ)
    (sample_pair : List (List ℤ)) (label : List ℕ) (score : List ℚ)
    (lambdas0 hessians0 : List ℚ) : List ℚ × List ℚ :=
  xendcgGetGradientsForOneQueryInner softmax wts gammas true query_id offset cnt
    sample_pair label score lambdas0 hessians0

/-- Gamma draw lying extremely close to 1 (a value rand_.NextFloat() can
approach), making phi(0, gamma) = 1 - gamma nearly vanish. -/
def wGamma : ℚ := 1 - 1 / 2 ^ 60

/-- Write a kernel's output (one value per document of the query) into the
caller's buffer at the query's offset, as the pointer arithmetic
gradients + start of lines 79-84 makes the kernel do. -/
def writeSlice (buf : List ℚ) (start : ℕ) (vals : List ℚ) : List ℚ :=
  buf.take start ++ vals ++ buf.drop (start + vals.length)

/-- Loop body of RankingObjective::GetGradients (lines 74-86) for query i:
compute the query's offset and size from the boundaries, decide sampling,
invoke the matching virtual kernel on the query's label/score slices and
its own output-slice contents, and write the result back into the
query's own output slice. -/
def ggStep (ctx : RankingCtx) (rng : ℕ → ℕ → List ℕ)
    (kU : ℕ → ℕ → ℕ → List ℕ → List ℚ → List ℚ → List ℚ → List ℚ × List ℚ)
    (kS : ℕ → ℕ → ℕ → List (List ℤ) → List ℕ → List ℚ → List ℚ → List ℚ →
      List ℚ × List ℚ)
    (score : List ℚ) (bufs : List ℚ × List ℚ) (i : ℕ) : List ℚ × List ℚ :=
  let start := ctx.query_boundaries_.getD i 0
  let cnt := ctx.query_boundaries_.getD (i + 1) 0 - start
  let res :=
    match Sample ctx rng start cnt with
    | none => kU i start cnt ((ctx.label_.drop start).take cnt)
        ((score.drop start).take cnt) ((bufs.1.drop start).take cnt)
        ((bufs.2.drop start).take cnt)
    | some sp => kS i start cnt sp ((ctx.label_.drop start).take cnt)
        ((score.drop start).take cnt) ((bufs.1.drop start).take cnt)
        ((bufs.2.drop start).take cnt)
  (writeSlice bufs.1 start res.1, writeSlice bufs.2 start res.2)

/-- RankingObjective::GetGradients (lines 70-87), parameterized by the two
virtual per-query kernels (the unsampled and the sampled overloads of
GetGradientsForOneQuery).  The OpenMP parallel loop over queries is
modelled sequentially; claim C7 makes the query independence that
justifies the parallelism precise. -/
def GetGradients (ctx : RankingCtx) (rng : ℕ → ℕ → List ℕ)
    (kU : ℕ → ℕ → ℕ → List ℕ → List ℚ → List ℚ → List ℚ → List ℚ × List ℚ)
    (kS : ℕ → ℕ → ℕ → List (List ℤ) → List ℕ → List ℚ → List ℚ → List ℚ →
      List ℚ × List ℚ)
    (score : List ℚ) (lambdas0 hessians0 : List ℚ) : List ℚ × List ℚ :=
  (List.range ctx.num_queries_).foldl (ggStep ctx rng kU kS score)
    (lambdas0, hessians0)

/-- The values query q's kernel invocation produces, as a function of
query q's own slices of the labels, scores and initial buffer contents
only. -/
def queryKernelResult (ctx : RankingCtx) (rng : ℕ → ℕ → List ℕ)
    (kU : ℕ → ℕ → ℕ → List ℕ → List ℚ → List ℚ → List ℚ → List ℚ × List ℚ)
    (kS : ℕ → ℕ → ℕ → List (List ℤ) → List ℕ → List ℚ → List ℚ → List ℚ →
      List ℚ × List ℚ)
    (score lambdas0 hessians0 : List ℚ) (q : ℕ) : List ℚ × List ℚ :=
  let start := ctx.query_boundaries_.getD q 0
  let cnt := ctx.query_boundaries_.getD (q + 1) 0 - start
  match Sample ctx rng start cnt with
  | none => kU q start cnt ((ctx.label_.drop start).take cnt)
      ((score.drop start).take cnt) ((lambdas0.drop start).take cnt)
      ((hessians0.drop start).take cnt)
  | some sp => kS q start cnt sp ((ctx.label_.drop start).take cnt)
      ((score.drop start).take cnt) ((lambdas0.drop start).take cnt)
      ((hessians0.drop start).take cnt)

/-- Length-respecting stand-in kernels used to instantiate the C7
witness. -/
def wKernelU : ℕ → ℕ → ℕ → List ℕ → List ℚ → List ℚ → List ℚ → List ℚ × List ℚ :=
  fun _ _ c _ _ _ _ => (List.replicate c 1, List.replicate c 2)

def wKernelS : ℕ → ℕ → ℕ → List (List ℤ) → List ℕ → List ℚ → List ℚ → List ℚ →
    List ℚ × List ℚ :=
  fun _ _ c _ _ _ _ _ => (List.replicate c 1, List.replicate c 2)

/-- Concrete base state for the C7 witness: two queries with boundaries
[0, 2, 3], sampling disabled. -/
def wCtx7 : RankingCtx :=
  { sample_cnt_ := 0
    num_queries_ := 2
    label_ := [0, 1, 2]
    weights_ := none
    query_boundaries_ := [0, 2, 3]
    sample_candidates_ := []
    sample_candidates_boundaries_ := [] }

theorem lambdarankInitState_min (expFn : ℚ → ℚ) (base : RankingCtx) (sigma : ℚ)
    (norm : Bool) (lg : List ℚ) (disc : ℕ → ℚ) (lg2 : ℚ → ℚ) :
    (lambdarankInitState expFn base sigma norm lg disc lg2).min_sigmoid_input_ =
      -50 / sigma / 2 := by
  simp [lambdarankInitState, ConstructSigmoidTable, mkLambdarankNDCG]

theorem lambdarankInitState_max (expFn : ℚ → ℚ) (base : RankingCtx) (sigma : ℚ)
    (norm : Bool) (lg : List ℚ) (disc : ℕ → ℚ) (lg2 : ℚ → ℚ) :
    (lambdarankInitState expFn base sigma norm lg disc lg2).max_sigmoid_input_ =
      -(-50 / sigma / 2) := by
  simp [lambdarankInitState, ConstructSigmoidTable, mkLambdarankNDCG]

theorem lambdarankInitState_bins (expFn : ℚ → ℚ) (base : RankingCtx) (sigma : ℚ)
    (norm : Bool) (lg : List ℚ) (disc : ℕ → ℚ) (lg2 : ℚ → ℚ) :
    (lambdarankInitState expFn base sigma norm lg disc lg2).sigmoid_bins = 2 ^ 20 := by
  simp [lambdarankInitState, ConstructSigmoidTable, mkLambdarankNDCG]

theorem lambdarankInitState_factor (expFn : ℚ → ℚ) (base : RankingCtx) (sigma : ℚ)
    (norm : Bool) (lg : List ℚ) (disc : ℕ → ℚ) (lg2 : ℚ → ℚ) :
    (lambdarankInitState expFn base sigma norm lg disc lg2).sigmoid_table_idx_factor_ =
      ((2 ^ 20 : ℚ)) / ((-(-50 / sigma / 2)) - (-50 / sigma / 2)) := by
  simp [lambdarankInitState, ConstructSigmoidTable, mkLambdarankNDCG]
  norm_num

theorem lambdarankInitState_table_len (expFn : ℚ → ℚ) (base : RankingCtx) (sigma : ℚ)
    (norm : Bool) (lg : List ℚ) (disc : ℕ → ℚ) (lg2 : ℚ → ℚ) :
    (lambdarankInitState expFn base sigma norm lg disc lg2).sigmoid_table_.length =
      2 ^ 20 := by
  simp only [lambdarankInitState, ConstructSigmoidTable, mkLambdarankNDCG]
  rw [List.length_map, List.length_range]
  norm_num

theorem lambdarankInitState_min_lt_max (expFn : ℚ → ℚ) (base : RankingCtx) (sigma : ℚ)
    (norm : Bool) (lg : List ℚ) (disc : ℕ → ℚ) (lg2 : ℚ → ℚ) (hσ : 0 < sigma) :
    (lambdarankInitState expFn base sigma norm lg disc lg2).min_sigmoid_input_ <
      (lambdarankInitState expFn base sigma norm lg disc lg2).max_sigmoid_input_ := by
  rw [lambdarankInitState_min, lambdarankInitState_max]
  have h : (0:ℚ) < 50 / sigma / 2 := by positivity
  have h2 : (-50 : ℚ) / sigma / 2 = -(50 / sigma / 2) := by ring
  rw [h2]
  linarith

theorem GetSigmoid_of_le_min (st : LambdaCtx) (x : ℚ)
    (h : x ≤ st.min_sigmoid_input_) :
    GetSigmoid st x = st.sigmoid_table_.getD 0 0 := by
  simp [GetSigmoid, h]

theorem GetSigmoid_of_ge_max (st : LambdaCtx) (x : ℚ)
    (h1 : st.min_sigmoid_input_ < x) (h2 : st.max_sigmoid_input_ ≤ x) :
    GetSigmoid st x = st.sigmoid_table_.getD (st.sigmoid_bins - 1) 0 := by
  simp [GetSigmoid, not_le.2 h1, h2]

theorem GetSigmoid_of_mid (st : LambdaCtx) (x : ℚ)
    (h1 : st.min_sigmoid_input_ < x) (h2 : x < st.max_sigmoid_input_) :
    GetSigmoid st x =
      st.sigmoid_table_.getD
        ((⌊(x - st.min_sigmoid_input_) * st.sigmoid_table_idx_factor_⌋).toNat) 0 := by
  simp [GetSigmoid, not_le.2 h1, not_le.2 h2]

/-- Helper: on the constructed table state, the in-range index is below the
bin count. -/
theorem lambdarankInitState_index_bound (expFn : ℚ → ℚ) (base : RankingCtx)
    (sigma : ℚ) (norm : Bool) (lg : List ℚ) (disc : ℕ → ℚ) (lg2 : ℚ → ℚ)
    (x : ℚ) (hσ : 0 < sigma)
    (h2 : x < (lambdarankInitState expFn base sigma norm lg disc lg2).max_sigmoid_input_) :
    (⌊(x - (lambdarankInitState expFn base sigma norm lg disc lg2).min_sigmoid_input_) *
        (lambdarankInitState expFn base sigma norm lg disc lg2).sigmoid_table_idx_factor_⌋).toNat
      < 2 ^ 20 := by
  rw [lambdarankInitState_min, lambdarankInitState_factor]
  rw [lambdarankInitState_max] at h2
  have hm : (-50 : ℚ) / sigma / 2 = -(25 / sigma) := by ring
  have hd : (-(-50 / sigma / 2) : ℚ) - -50 / sigma / 2 = 50 / sigma := by ring
  have hdpos : (0:ℚ) < 50 / sigma := by positivity
  have hfpos : (0:ℚ) < (2 ^ 20 : ℚ) / (-(-50 / sigma / 2) - -50 / sigma / 2) := by
    rw [hd]; positivity
  have hy : (x - -50 / sigma / 2) * ((2 ^ 20 : ℚ) / (-(-50 / sigma / 2) - -50 / sigma / 2))
      < 2 ^ 20 := by
    have hxlt : x - -50 / sigma / 2 < -(-50 / sigma / 2) - -50 / sigma / 2 := by
      have := h2; linarith
    calc (x - -50 / sigma / 2) * ((2 ^ 20 : ℚ) / (-(-50 / sigma / 2) - -50 / sigma / 2))
        < (-(-50 / sigma / 2) - -50 / sigma / 2) *
            ((2 ^ 20 : ℚ) / (-(-50 / sigma / 2) - -50 / sigma / 2)) := by
          exact mul_lt_mul_of_pos_right hxlt hfpos
      _ = 2 ^ 20 := by rw [hd]; field_simp; ring
  have hfl : ⌊(x - -50 / sigma / 2) *
      ((2 ^ 20 : ℚ) / (-(-50 / sigma / 2) - -50 / sigma / 2))⌋ < (2 ^ 20 : ℤ) := by
    rw [Int.floor_lt]; push_cast; exact hy
  omega

/-- Claim C2 counterexample: the claim asserts the clamped input bound has
magnitude 50 / sigma, so at sigma = 1 the lower bound would be -50; but
ConstructSigmoidTable computes min_sigmoid_input_ = -50 / sigma / 2, which
at sigma = 1 is -25, not -50. -/
theorem C2_counterexample :
    ¬ ((lambdarankInitState (fun _ => 0) baseCtx0 1 true [] (fun _ => 0)
        (fun _ => 0)).min_sigmoid_input_ = -(50 / 1)) := by
  rw [lambdarankInitState_min]
  norm_num

/-- Claim C2 (amended): the Lambdarank sigmoid lookup table is built over
the symmetric clamped input domain [-50 / sigma / 2, +50 / sigma / 2]
(bound magnitude 25 / sigma, not 50 / sigma) with a fixed resolution of
2^20 bins; for every input x, GetSigmoid returns the first table entry
when x is at or below the lower bound, the last entry when x is at or
above the upper bound, and otherwise the entry at linear index
(x - min) * (bins / (max - min)), truncated to an integer. -/
theorem C2_sigmoid_table_domain (expFn : ℚ → ℚ) (base : RankingCtx)
    (sigma : ℚ) (norm : Bool) (lg : List ℚ) (disc : ℕ → ℚ) (lg2 : ℚ → ℚ)
    (hσ : 0 < sigma) :
    (lambdarankInitState expFn base sigma norm lg disc lg2).min_sigmoid_input_ =
        -(50 / sigma / 2)
    ∧ (lambdarankInitState expFn base sigma norm lg disc lg2).max_sigmoid_input_ =
        50 / sigma / 2
    ∧ (lambdarankInitState expFn base sigma norm lg disc lg2).sigmoid_table_.length =
        2 ^ 20
    ∧ (∀ x : ℚ,
        x ≤ (lambdarankInitState expFn base sigma norm lg disc lg2).min_sigmoid_input_ →
        GetSigmoid (lambdarankInitState expFn base sigma norm lg disc lg2) x =
          (lambdarankInitState expFn base sigma norm lg disc lg2).sigmoid_table_.getD 0 0)
    ∧ (∀ x : ℚ,
        (lambdarankInitState expFn base sigma norm lg disc lg2).max_sigmoid_input_ ≤ x →
        GetSigmoid (lambdarankInitState expFn base sigma norm lg disc lg2) x =
          (lambdarankInitState expFn base sigma norm lg disc lg2).sigmoid_table_.getD
            (2 ^ 20 - 1) 0)
    ∧ (∀ x : ℚ,
        (lambdarankInitState expFn base sigma norm lg disc lg2).min_sigmoid_input_ < x →
        x < (lambdarankInitState expFn base sigma norm lg disc lg2).max_sigmoid_input_ →
        GetSigmoid (lambdarankInitState expFn base sigma norm lg disc lg2) x =
          (lambdarankInitState expFn base sigma norm lg disc lg2).sigmoid_table_.getD
            ((⌊(x - (lambdarankInitState expFn base sigma norm lg disc lg2).min_sigmoid_input_) *
                ((2 ^ 20 : ℚ) /
                  ((lambdarankInitState expFn base sigma norm lg disc lg2).max_sigmoid_input_ -
                    (lambdarankInitState expFn base sigma norm lg disc lg2).min_sigmoid_input_))⌋).toNat)
            0) := by
  refine ⟨?_, ?_, ?_, ?_, ?_, ?_⟩
  · rw [lambdarankInitState_min]; ring
  · rw [lambdarankInitState_max]; ring
  · exact lambdarankInitState_table_len expFn base sigma norm lg disc lg2
  · intro x hx
    exact GetSigmoid_of_le_min _ x hx
  · intro x hx
    have hlt := lambdarankInitState_min_lt_max expFn base sigma norm lg disc lg2 hσ
    have := GetSigmoid_of_ge_max (lambdarankInitState expFn base sigma norm lg disc lg2) x
      (lt_of_lt_of_le hlt hx) hx
    rw [this, lambdarankInitState_bins]
  · intro x h1 h2
    have := GetSigmoid_of_mid (lambdarankInitState expFn base sigma norm lg disc lg2) x h1 h2
    rw [this, lambdarankInitState_factor, lambdarankInitState_min, lambdarankInitState_max]

/-- Witness for C2: a concrete instantiation at sigma = 1. -/
theorem C2_sigmoid_table_domain_witness :
    (0:ℚ) < 1
    ∧ ((lambdarankInitState (fun _ => 0) baseCtx0 1 true [] (fun _ => 0)
          (fun _ => 0)).min_sigmoid_input_ = -(50 / 1 / 2)
      ∧ (lambdarankInitState (fun _ => 0) baseCtx0 1 true [] (fun _ => 0)
          (fun _ => 0)).max_sigmoid_input_ = 50 / 1 / 2
      ∧ (lambdarankInitState (fun _ => 0) baseCtx0 1 true [] (fun _ => 0)
          (fun _ => 0)).sigmoid_table_.length = 2 ^ 20
      ∧ (∀ x : ℚ,
          x ≤ (lambdarankInitState (fun _ => 0) baseCtx0 1 true [] (fun _ => 0)
            (fun _ => 0)).min_sigmoid_input_ →
          GetSigmoid (lambdarankInitState (fun _ => 0) baseCtx0 1 true [] (fun _ => 0)
            (fun _ => 0)) x =
            (lambdarankInitState (fun _ => 0) baseCtx0 1 true [] (fun _ => 0)
              (fun _ => 0)).sigmoid_table_.getD 0 0)
      ∧ (∀ x : ℚ,
          (lambdarankInitState (fun _ => 0) baseCtx0 1 true [] (fun _ => 0)
            (fun _ => 0)).max_sigmoid_input_ ≤ x →
          GetSigmoid (lambdarankInitState (fun _ => 0) baseCtx0 1 true [] (fun _ => 0)
            (fun _ => 0)) x =
            (lambdarankInitState (fun _ => 0) baseCtx0 1 true [] (fun _ => 0)
              (fun _ => 0)).sigmoid_table_.getD (2 ^ 20 - 1) 0)
      ∧ (∀ x : ℚ,
          (lambdarankInitState (fun _ => 0) baseCtx0 1 true [] (fun _ => 0)
            (fun _ => 0)).min_sigmoid_input_ < x →
          x < (lambdarankInitState (fun _ => 0) baseCtx0 1 true [] (fun _ => 0)
            (fun _ => 0)).max_sigmoid_input_ →
          GetSigmoid (lambdarankInitState (fun _ => 0) baseCtx0 1 true [] (fun _ => 0)
            (fun _ => 0)) x =
            (lambdarankInitState (fun _ => 0) baseCtx0 1 true [] (fun _ => 0)
              (fun _ => 0)).sigmoid_table_.getD
              ((⌊(x - (lambdarankInitState (fun _ => 0) baseCtx0 1 true [] (fun _ => 0)
                    (fun _ => 0)).min_sigmoid_input_) *
                  ((2 ^ 20 : ℚ) /
                    ((lambdarankInitState (fun _ => 0) baseCtx0 1 true [] (fun _ => 0)
                        (fun _ => 0)).max_sigmoid_input_ -
                      (lambdarankInitState (fun _ => 0) baseCtx0 1 true [] (fun _ => 0)
                        (fun _ => 0)).min_sigmoid_input_))⌋).toNat)
              0)) :=
  ⟨by norm_num,
   C2_sigmoid_table_domain (fun _ => 0) baseCtx0 1 true [] (fun _ => 0) (fun _ => 0)
     (by norm_num)⟩

/-- Claim C9: GetSigmoid is total and never indexes the sigmoid table out
of bounds: on the constructed table state, inputs at or below the lower
bound return the first entry, inputs at or above the upper bound return
the last entry, and otherwise the computed linear index lies in
[0, sigmoid_bins - 1]. -/
theorem C9_getSigmoid_inbounds (expFn : ℚ → ℚ) (base : RankingCtx)
    (sigma : ℚ) (norm : Bool) (lg : List ℚ) (disc : ℕ → ℚ) (lg2 : ℚ → ℚ)
    (x : ℚ) (hσ : 0 < sigma) :
    (x ≤ (lambdarankInitState expFn base sigma norm lg disc lg2).min_sigmoid_input_ →
      GetSigmoid (lambdarankInitState expFn base sigma norm lg disc lg2) x =
        (lambdarankInitState expFn base sigma norm lg disc lg2).sigmoid_table_.getD 0 0)
    ∧ ((lambdarankInitState expFn base sigma norm lg disc lg2).max_sigmoid_input_ ≤ x →
      GetSigmoid (lambdarankInitState expFn base sigma norm lg disc lg2) x =
        (lambdarankInitState expFn base sigma norm lg disc lg2).sigmoid_table_.getD
          ((lambdarankInitState expFn base sigma norm lg disc lg2).sigmoid_bins - 1) 0)
    ∧ ((lambdarankInitState expFn base sigma norm lg disc lg2).min_sigmoid_input_ < x →
      x < (lambdarankInitState expFn base sigma norm lg disc lg2).max_sigmoid_input_ →
      (⌊(x - (lambdarankInitState expFn base sigma norm lg disc lg2).min_sigmoid_input_) *
          (lambdarankInitState expFn base sigma norm lg disc lg2).sigmoid_table_idx_factor_⌋).toNat
        ≤ (lambdarankInitState expFn base sigma norm lg disc lg2).sigmoid_bins - 1) := by
  refine ⟨?_, ?_, ?_⟩
  · intro hx
    exact GetSigmoid_of_le_min _ x hx
  · intro hx
    have hlt := lambdarankInitState_min_lt_max expFn base sigma norm lg disc lg2 hσ
    exact GetSigmoid_of_ge_max _ x (lt_of_lt_of_le hlt hx) hx
  · intro h1 h2
    have hb := lambdarankInitState_index_bound expFn base sigma norm lg disc lg2 x hσ h2
    rw [lambdarankInitState_bins]
    omega

/-- Witness for C9 at sigma = 1, x = 1 (strictly inside the domain). -/
theorem C9_getSigmoid_inbounds_witness :
    (0:ℚ) < 1
    ∧ (((1:ℚ) ≤ (lambdarankInitState (fun _ => 0) baseCtx0 1 true [] (fun _ => 0)
          (fun _ => 0)).min_sigmoid_input_ →
        GetSigmoid (lambdarankInitState (fun _ => 0) baseCtx0 1 true [] (fun _ => 0)
          (fun _ => 0)) 1 =
          (lambdarankInitState (fun _ => 0) baseCtx0 1 true [] (fun _ => 0)
            (fun _ => 0)).sigmoid_table_.getD 0 0)
      ∧ ((lambdarankInitState (fun _ => 0) baseCtx0 1 true [] (fun _ => 0)
            (fun _ => 0)).max_sigmoid_input_ ≤ (1:ℚ) →
        GetSigmoid (lambdarankInitState (fun _ => 0) baseCtx0 1 true [] (fun _ => 0)
          (fun _ => 0)) 1 =
          (lambdarankInitState (fun _ => 0) baseCtx0 1 true [] (fun _ => 0)
            (fun _ => 0)).sigmoid_table_.getD
            ((lambdarankInitState (fun _ => 0) baseCtx0 1 true [] (fun _ => 0)
              (fun _ => 0)).sigmoid_bins - 1) 0)
      ∧ ((lambdarankInitState (fun _ => 0) baseCtx0 1 true [] (fun _ => 0)
            (fun _ => 0)).min_sigmoid_input_ < (1:ℚ) →
        (1:ℚ) < (lambdarankInitState (fun _ => 0) baseCtx0 1 true [] (fun _ => 0)
          (fun _ => 0)).max_sigmoid_input_ →
        (⌊((1:ℚ) - (lambdarankInitState (fun _ => 0) baseCtx0 1 true [] (fun _ => 0)
            (fun _ => 0)).min_sigmoid_input_) *
            (lambdarankInitState (fun _ => 0) baseCtx0 1 true [] (fun _ => 0)
              (fun _ => 0)).sigmoid_table_idx_factor_⌋).toNat
          ≤ (lambdarankInitState (fun _ => 0) baseCtx0 1 true [] (fun _ => 0)
            (fun _ => 0)).sigmoid_bins - 1)) :=
  ⟨by norm_num,
   C9_getSigmoid_inbounds (fun _ => 0) baseCtx0 1 true [] (fun _ => 0) (fun _ => 0) 1
     (by norm_num)⟩

theorem toInt16_of_lt {n : ℕ} (h : n < 2 ^ 15) : toInt16 n = (n : ℤ) := by
  unfold toInt16
  omega

theorem toInt16_ne_of_ge {j : ℕ} (h : 2 ^ 15 ≤ j) : toInt16 j ≠ (j : ℤ) := by
  unfold toInt16
  omega

/-- Claim C10 counterexample: the claim asserts that for ANY query larger
than 32767 documents the stored indices wrap and no longer address the
intended documents.  But in this size-32768 query, document 32767's
inferior-candidate list is all 32767 other documents and every stored
int16_t value still equals the true index (the largest index 32766 fits
int16_t), so the sampled path addresses exactly the intended documents. -/
theorem getD_replicate_append_last (n : ℕ) (a b d : ℕ) :
    (List.replicate n a ++ [b]).getD n d = b := by
  rw [List.getD_eq_getElem?_getD, List.getElem?_append_right (by simp),
    List.length_replicate]
  simp

theorem getD_replicate_append_lt (n j : ℕ) (a b d : ℕ) (h : j < n) :
    (List.replicate n a ++ [b]).getD j d = a := by
  rw [List.getD_eq_getElem?_getD, List.getElem?_append]
  simp [h, List.getElem?_replicate]

theorem C10_counterexample :
    inferiorCandidates bigQueryLabels 32768 32767 = List.range 32767
    ∧ storedCandidates bigQueryLabels 32768 32767 =
        (List.range 32767).map (fun (j : ℕ) => (j : ℤ)) := by
  have hmem : ∀ j ∈ List.range 32767,
      (fun j => decide (¬ (32767 = j ∨
        bigQueryLabels.getD 32767 0 ≤ bigQueryLabels.getD j 0))) j = true := by
    intro j hj
    have hjlt : j < 32767 := List.mem_range.mp hj
    have h1 : bigQueryLabels.getD 32767 0 = 1 :=
      getD_replicate_append_last 32767 0 1 0
    have h2 : bigQueryLabels.getD j 0 = 0 :=
      getD_replicate_append_lt 32767 j 0 1 0 hjlt
    simp only [h1, h2, decide_eq_true_eq]
    omega
  have hinf : inferiorCandidates bigQueryLabels 32768 32767 = List.range 32767 := by
    unfold inferiorCandidates
    have hsplit : List.range 32768 = List.range 32767 ++ [32767] := by
      have h : (32768 : ℕ) = 32767 + 1 := by norm_num
      rw [h, List.range_succ]
    rw [hsplit, List.filter_append]
    have hlast : List.filter
        (fun j => decide (¬ (32767 = j ∨
          bigQueryLabels.getD 32767 0 ≤ bigQueryLabels.getD j 0))) [32767] = [] := by
      rw [List.filter_cons]
      simp
    rw [hlast, List.filter_eq_self.mpr hmem, List.append_nil]
  refine ⟨hinf, ?_⟩
  unfold storedCandidates
  rw [hinf]
  apply List.map_congr_left
  intro j hj
  exact toInt16_of_lt (by have := List.mem_range.mp hj; omega)

/-- Claim C10 (amended): the inferior-candidate index stores query-local
document indices as signed 16-bit integers.  For every query of size at
most 32768 each stored candidate value equals the true index of a
same-query document with strictly smaller label; any candidate index of
32768 or more is stored wrapped modulo 2^16 and differs from the true
index, so for such documents the sampled gradient path no longer
addresses the intended documents. -/
theorem C10_int16_candidate_storage (cur_label : List ℕ) (cnt i : ℕ)
    (h : cnt ≤ 2 ^ 15) :
    storedCandidates cur_label cnt i =
      (inferiorCandidates cur_label cnt i).map (fun (j : ℕ) => (j : ℤ))
    ∧ (∀ j ∈ inferiorCandidates cur_label cnt i,
        j ≠ i ∧ cur_label.getD j 0 < cur_label.getD i 0)
    ∧ (∀ j : ℕ, 2 ^ 15 ≤ j → toInt16 j ≠ (j : ℤ)) := by
  refine ⟨?_, ?_, fun j hj => toInt16_ne_of_ge hj⟩
  · unfold storedCandidates
    apply List.map_congr_left
    intro j hj
    have hjr : j ∈ List.range cnt := List.mem_of_mem_filter hj
    exact toInt16_of_lt (by have := List.mem_range.mp hjr; omega)
  · intro j hj
    have hp := List.of_mem_filter hj
    simp only [decide_eq_true_eq] at hp
    push_neg at hp
    exact ⟨fun hij => hp.1 hij.symm, hp.2⟩

/-- Witness for C10 on a 3-document query with labels [1, 0, 0]. -/
theorem C10_int16_candidate_storage_witness :
    3 ≤ 2 ^ 15
    ∧ (storedCandidates [1, 0, 0] 3 0 =
        (inferiorCandidates [1, 0, 0] 3 0).map (fun (j : ℕ) => (j : ℤ))
      ∧ (∀ j ∈ inferiorCandidates [1, 0, 0] 3 0,
          j ≠ 0 ∧ List.getD [1, 0, 0] j 0 < List.getD [1, 0, 0] 0 0)
      ∧ (∀ j : ℕ, 2 ^ 15 ≤ j → toInt16 j ≠ (j : ℤ))) :=
  ⟨by norm_num, C10_int16_candidate_storage [1, 0, 0] 3 0 (by norm_num)⟩

theorem sortedIdx_perm (e : PairEnv) : e.sortedIdx.Perm (List.range e.cnt) :=
  List.perm_insertionSort _ _

theorem sortedIdx_length (e : PairEnv) : e.sortedIdx.length = e.cnt := by
  rw [(sortedIdx_perm e).length_eq, List.length_range]

theorem sortedIdx_getD_lt (e : PairEnv) (k : ℕ) (h : 0 < e.cnt) :
    e.sortedIdx.getD k 0 < e.cnt := by
  rcases lt_or_ge k e.sortedIdx.length with hk | hk
  · have hm : e.sortedIdx.getD k 0 ∈ e.sortedIdx := by
      rw [List.getD_eq_getElem _ _ hk]
      exact List.getElem_mem hk
    exact List.mem_range.mp ((sortedIdx_perm e).mem_iff.mp hm)
  · rw [List.getD_eq_default _ _ hk]
    exact h

theorem high_lt (e : PairEnv) (i : ℕ) (h : 0 < e.cnt) : e.high i < e.cnt :=
  sortedIdx_getD_lt e i h

theorem low_lt (e : PairEnv) (i j : ℕ) (h : 0 < e.cnt) : e.low i j < e.cnt :=
  sortedIdx_getD_lt e (e.curJ i j) h

theorem sum_set_getD (L : List ℚ) (n : ℕ) (a : ℚ) (h : n < L.length) :
    (L.set n a).sum = L.sum - L.getD n 0 + a := by
  induction L generalizing n with
  | nil => simp at h
  | cons x xs ih =>
    cases n with
    | zero => simp; ring
    | succ m =>
      simp only [List.set, List.sum_cons, List.getD_cons_succ]
      rw [ih m (by simpa using h)]
      ring

theorem innerStep_sum_high (e : PairEnv) (i j : ℕ) (acc : PairAcc)
    (hlen : acc.lambdas.length = e.cnt) (hcnt : 0 < e.cnt) :
    ((innerStep e i acc j).lambdas.sum + (innerStep e i acc j).high_sum_lambda
      = acc.lambdas.sum + acc.high_sum_lambda)
    ∧ (innerStep e i acc j).lambdas.length = e.cnt := by
  unfold innerStep
  by_cases h : e.retained i j
  · rw [if_pos h]
    refine ⟨?_, by simp [hlen]⟩
    simp only
    rw [sum_set_getD _ _ _ (by rw [hlen]; exact low_lt e i j hcnt)]
    ring
  · rw [if_neg h]
    exact ⟨rfl, hlen⟩

theorem innerLoop_sum_high (e : PairEnv) (i : ℕ) (l : List ℕ) (acc : PairAcc)
    (hlen : acc.lambdas.length = e.cnt) (hcnt : 0 < e.cnt) :
    ((l.foldl (innerStep e i) acc).lambdas.sum
        + (l.foldl (innerStep e i) acc).high_sum_lambda
      = acc.lambdas.sum + acc.high_sum_lambda)
    ∧ (l.foldl (innerStep e i) acc).lambdas.length = e.cnt := by
  induction l generalizing acc with
  | nil => exact ⟨rfl, hlen⟩
  | cons x xs ih =>
    simp only [List.foldl_cons]
    have h1 := innerStep_sum_high e i x acc hlen hcnt
    have h2 := ih (innerStep e i acc x) h1.2
    exact ⟨by rw [h2.1, h1.1], h2.2⟩

theorem outerStep_sum (e : PairEnv) (acc : PairAcc) (i : ℕ)
    (hlen : acc.lambdas.length = e.cnt) (hcnt : 0 < e.cnt) :
    (outerStep e acc i).lambdas.sum = acc.lambdas.sum
    ∧ (outerStep e acc i).lambdas.length = e.cnt := by
  unfold outerStep
  by_cases h : e.score.getD (e.high i) 0 = kMinScore
  · rw [if_pos h]; exact ⟨rfl, hlen⟩
  · rw [if_neg h]
    have h1 := innerLoop_sum_high e i (List.range (e.loopCnt i))
      { acc with high_sum_lambda := 0, high_sum_hessian := 0 } hlen hcnt
    simp only
    constructor
    · rw [sum_set_getD _ _ _ (by rw [h1.2]; exact high_lt e i hcnt)]
      have h2 := h1.1
      simp only at h2
      linarith
    · simp [h1.2]

theorem foldl_outer_sum (e : PairEnv) (l : List ℕ) (acc : PairAcc)
    (hlen : acc.lambdas.length = e.cnt) (hcnt : 0 < e.cnt) :
    ((l.foldl (outerStep e) acc).lambdas.sum = acc.lambdas.sum)
    ∧ (l.foldl (outerStep e) acc).lambdas.length = e.cnt := by
  induction l generalizing acc with
  | nil => exact ⟨rfl, hlen⟩
  | cons x xs ih =>
    simp only [List.foldl_cons]
    have h1 := outerStep_sum e acc x hlen hcnt
    have h2 := ih (outerStep e acc x) h1.2
    exact ⟨by rw [h2.1, h1.1], h2.2⟩

/-- Claim C5: in the unsampled Lambdarank kernel every retained pair adds
a contribution to the high document and subtracts the same amount from
the low document, so after the pair-accumulation phase (before the
normalization rescale and before weight multiplication) the lambdas of a
query sum to zero. -/
theorem C5_lambda_sum_zero (st : LambdaCtx) (query_id offset cnt : ℕ)
    (label : List ℕ) (score : List ℚ) :
    (pairPhase ⟨st, false, query_id, offset, cnt, [], label, score⟩).lambdas.sum = 0 := by
  rcases Nat.eq_zero_or_pos cnt with h0 | hpos
  · subst h0
    unfold pairPhase
    simp
  · unfold pairPhase
    have h := foldl_outer_sum ⟨st, false, query_id, offset, cnt, [], label, score⟩
      (List.range cnt)
      { lambdas := List.replicate cnt 0
        hessians := List.replicate cnt 0
        sum_lambdas := 0
        high_sum_lambda := 0
        high_sum_hessian := 0 }
      (by simp) hpos
    rw [h.1]
    simp

theorem set_replicate_self (n i : ℕ) (a : ℚ) :
    (List.replicate n a).set i a = List.replicate n a := by
  induction n generalizing i with
  | zero => simp
  | succ m ih =>
    rw [List.replicate_succ]
    cases i with
    | zero => simp
    | succ k => simp [ih k]

theorem getD_replicate_zero (n i : ℕ) : (List.replicate n (0:ℚ)).getD i 0 = 0 := by
  rcases lt_or_ge i (List.replicate n (0:ℚ)).length with hk | hk
  · rw [List.getD_eq_getElem _ _ hk, List.getElem_replicate]
  · rw [List.getD_eq_default _ _ hk]

theorem deltaPairNDCG_of_imd_zero (e : PairEnv) (i j : ℕ) (h : e.imd = 0) :
    e.deltaPairNDCG i j = 0 := by
  simp [PairEnv.deltaPairNDCG, h]

theorem pLambda_of_imd_zero (e : PairEnv) (i j : ℕ) (h : e.imd = 0) :
    e.pLambda i j = 0 := by
  simp [PairEnv.pLambda, deltaPairNDCG_of_imd_zero e i j h]

theorem pHessian_of_imd_zero (e : PairEnv) (i j : ℕ) (h : e.imd = 0) :
    e.pHessian i j = 0 := by
  simp [PairEnv.pHessian, deltaPairNDCG_of_imd_zero e i j h]

theorem not_retained_of_const_label (e : PairEnv) (i j : ℕ) (hcnt : 0 < e.cnt)
    (h : ∀ a b : ℕ, a < e.cnt → b < e.cnt → e.label.getD a 0 = e.label.getD b 0) :
    ¬ e.retained i j := by
  intro hr
  have heq := h (e.high i) (e.low i j) (high_lt e i hcnt) (low_lt e i j hcnt)
  exact hr.2 (Or.inl (le_of_eq heq))

theorem innerStep_zacc (e : PairEnv) (i j : ℕ) (acc : PairAcc)
    (H : ∀ a b : ℕ, e.retained a b → e.pLambda a b = 0 ∧ e.pHessian a b = 0)
    (hz : ZAcc e acc) : ZAcc e (innerStep e i acc j) := by
  obtain ⟨hl, hh, hs, hsl, hsh⟩ := hz
  unfold innerStep
  by_cases h : e.retained i j
  · rw [if_pos h]
    obtain ⟨hpl, hph⟩ := H i j h
    refine ⟨?_, ?_, ?_, ?_, ?_⟩
    · simp only [hl, hpl, getD_replicate_zero, sub_zero, set_replicate_self]
    · simp only [hh, hph, getD_replicate_zero, add_zero, set_replicate_self]
    · simp [hs, hpl]
    · simp [hsl, hpl]
    · simp [hsh, hph]
  · rw [if_neg h]
    exact ⟨hl, hh, hs, hsl, hsh⟩

theorem innerLoop_zacc (e : PairEnv) (i : ℕ) (l : List ℕ) (acc : PairAcc)
    (H : ∀ a b : ℕ, e.retained a b → e.pLambda a b = 0 ∧ e.pHessian a b = 0)
    (hz : ZAcc e acc) : ZAcc e (l.foldl (innerStep e i) acc) := by
  induction l generalizing acc with
  | nil => exact hz
  | cons x xs ih =>
    simp only [List.foldl_cons]
    exact ih (innerStep e i acc x) (innerStep_zacc e i x acc H hz)

theorem outerStep_zacc (e : PairEnv) (acc : PairAcc) (i : ℕ)
    (H : ∀ a b : ℕ, e.retained a b → e.pLambda a b = 0 ∧ e.pHessian a b = 0)
    (hz : ZAcc e acc) : ZAcc e (outerStep e acc i) := by
  obtain ⟨hl, hh, hs, hsl, hsh⟩ := hz
  unfold outerStep
  by_cases h : e.score.getD (e.high i) 0 = kMinScore
  · rw [if_pos h]
    exact ⟨hl, hh, hs, hsl, hsh⟩
  · rw [if_neg h]
    have hz1 : ZAcc e { acc with high_sum_lambda := 0, high_sum_hessian := 0 } :=
      ⟨hl, hh, hs, rfl, rfl⟩
    have h1 := innerLoop_zacc e i (List.range (e.loopCnt i)) _ H hz1
    obtain ⟨h1l, h1h, h1s, h1sl, h1sh⟩ := h1
    refine ⟨?_, ?_, h1s, h1sl, h1sh⟩
    · simp only [h1l, h1sl, getD_replicate_zero, add_zero, set_replicate_self]
    · simp only [h1h, h1sh, getD_replicate_zero, add_zero, set_replicate_self]

theorem foldl_outer_zacc (e : PairEnv) (l : List ℕ) (acc : PairAcc)
    (H : ∀ a b : ℕ, e.retained a b → e.pLambda a b = 0 ∧ e.pHessian a b = 0)
    (hz : ZAcc e acc) : ZAcc e (l.foldl (outerStep e) acc) := by
  induction l generalizing acc with
  | nil => exact hz
  | cons x xs ih =>
    simp only [List.foldl_cons]
    exact ih (outerStep e acc x) (outerStep_zacc e acc x H hz)

theorem pairPhase_zacc (e : PairEnv)
    (H : ∀ a b : ℕ, e.retained a b → e.pLambda a b = 0 ∧ e.pHessian a b = 0) :
    ZAcc e (pairPhase e) := by
  unfold pairPhase
  exact foldl_outer_zacc e (List.range e.cnt) _ H ⟨rfl, rfl, rfl, rfl, rfl⟩

theorem weightPhase_zero (st : LambdaCtx) (offset cnt : ℕ) :
    weightPhase st offset cnt (List.replicate cnt 0) (List.replicate cnt 0)
      = (List.replicate cnt 0, List.replicate cnt 0) := by
  unfold weightPhase
  cases hw : st.weights_ with
  | none => rfl
  | some w =>
    refine Prod.ext ?_ ?_
    all_goals
      simp only
      rw [List.eq_replicate_iff]
      refine ⟨by simp, ?_⟩
      intro b hb
      obtain ⟨i, _, hi⟩ := List.mem_map.mp hb
      rw [← hi, getD_replicate_zero, zero_mul]

/-- Claim C8: the Lambdarank kernel produces all-zero lambdas and all-zero
hessians (raising no error) for every query whose stored inverse_max_dcg
is zero, and for every query in which all documents share the same label
(no pair passes the label[h] > label[l] test, so nothing is
accumulated). -/
theorem C8_degenerate_query_zero (st : LambdaCtx) (sample : Bool)
    (query_id offset cnt : ℕ) (sample_pair : List (List ℤ))
    (label : List ℕ) (score : List ℚ)
    (h : st.inverse_max_dcgs_.getD query_id 0 = 0
      ∨ ∀ a b : ℕ, a < cnt → b < cnt → label.getD a 0 = label.getD b 0) :
    lambdarankGetGradientsForOneQueryInner st sample query_id offset cnt
        sample_pair label score
      = (List.replicate cnt 0, List.replicate cnt 0) := by
  rcases Nat.eq_zero_or_pos cnt with h0 | hpos
  · subst h0
    unfold lambdarankGetGradientsForOneQueryInner pairPhase normPhase weightPhase
    cases hw : st.weights_ with
    | none => simp
    | some w => simp [hw]
  · have H : ∀ a b : ℕ,
        (⟨st, sample, query_id, offset, cnt, sample_pair, label, score⟩ : PairEnv).retained a b →
        (⟨st, sample, query_id, offset, cnt, sample_pair, label, score⟩ : PairEnv).pLambda a b = 0
        ∧ (⟨st, sample, query_id, offset, cnt, sample_pair, label, score⟩ : PairEnv).pHessian a b = 0 := by
      rcases h with himd | hlab
      · intro a b _
        exact ⟨pLambda_of_imd_zero _ a b himd, pHessian_of_imd_zero _ a b himd⟩
      · intro a b hr
        exact absurd hr (not_retained_of_const_label _ a b hpos hlab)
    have hz := pairPhase_zacc ⟨st, sample, query_id, offset, cnt, sample_pair, label, score⟩ H
    obtain ⟨hl, hh, hs, _, _⟩ := hz
    unfold lambdarankGetGradientsForOneQueryInner
    simp only [hl, hh, hs]
    have hnorm : normPhase st (List.replicate cnt 0) (List.replicate cnt 0) 0
        = (List.replicate cnt 0, List.replicate cnt 0) := by
      unfold normPhase
      simp
    rw [hnorm]
    exact weightPhase_zero st offset cnt

/-- Witness for C8: a two-document query with labels [1, 0] whose stored
inverse max DCG is zero yields all-zero outputs. -/
theorem C8_degenerate_query_zero_witness :
    (wCtx8.inverse_max_dcgs_.getD 0 0 = 0
      ∨ ∀ a b : ℕ, a < 2 → b < 2 → List.getD [1, 0] a 0 = List.getD [1, 0] b 0)
    ∧ lambdarankGetGradientsForOneQueryInner wCtx8 false 0 0 2 [] [1, 0] [1/2, 1/4]
        = (List.replicate 2 0, List.replicate 2 0) :=
  ⟨Or.inl (by simp [wCtx8]),
   C8_degenerate_query_zero wCtx8 false 0 0 2 [] [1, 0] [1/2, 1/4]
     (Or.inl (by simp [wCtx8]))⟩

theorem innerStep_sum_lambdas (e : PairEnv) (i j : ℕ) (acc : PairAcc) :
    (innerStep e i acc j).sum_lambdas
      = acc.sum_lambdas + (if e.retained i j then -(2 * e.pLambda i j) else 0) := by
  unfold innerStep
  by_cases h : e.retained i j
  · rw [if_pos h, if_pos h]
    simp only
    ring
  · rw [if_neg h, if_neg h]
    ring

theorem innerLoop_sum_lambdas (e : PairEnv) (i : ℕ) (l : List ℕ) (acc : PairAcc) :
    (l.foldl (innerStep e i) acc).sum_lambdas
      = acc.sum_lambdas
        + (l.map (fun j => if e.retained i j then -(2 * e.pLambda i j) else 0)).sum := by
  induction l generalizing acc with
  | nil => simp
  | cons x xs ih =>
    simp only [List.foldl_cons, List.map_cons, List.sum_cons]
    rw [ih (innerStep e i acc x), innerStep_sum_lambdas]
    ring

theorem outerStep_sum_lambdas (e : PairEnv) (acc : PairAcc) (i : ℕ) :
    (outerStep e acc i).sum_lambdas
      = acc.sum_lambdas
        + (if e.score.getD (e.high i) 0 = kMinScore then 0
          else ((List.range (e.loopCnt i)).map
            (fun j => if e.retained i j then -(2 * e.pLambda i j) else 0)).sum) := by
  unfold outerStep
  by_cases h : e.score.getD (e.high i) 0 = kMinScore
  · rw [if_pos h, if_pos h]
    ring
  · rw [if_neg h, if_neg h]
    simp only
    rw [innerLoop_sum_lambdas]

theorem foldl_outer_sum_lambdas (e : PairEnv) (l : List ℕ) (acc : PairAcc) :
    (l.foldl (outerStep e) acc).sum_lambdas
      = acc.sum_lambdas
        + (l.map (fun i => if e.score.getD (e.high i) 0 = kMinScore then 0
            else ((List.range (e.loopCnt i)).map
              (fun j => if e.retained i j then -(2 * e.pLambda i j) else 0)).sum)).sum := by
  induction l generalizing acc with
  | nil => simp
  | cons x xs ih =>
    simp only [List.foldl_cons, List.map_cons, List.sum_cons]
    rw [ih (outerStep e acc x), outerStep_sum_lambdas]
    ring

theorem pairPhase_sum_lambdas (e : PairEnv) :
    (pairPhase e).sum_lambdas
      = ((List.range e.cnt).map
          (fun i => if e.score.getD (e.high i) 0 = kMinScore then 0
            else ((List.range (e.loopCnt i)).map
              (fun j => if e.retained i j then -(2 * e.pLambda i j) else 0)).sum)).sum := by
  unfold pairPhase
  rw [foldl_outer_sum_lambdas]
  simp

theorem innerStep_lengths (e : PairEnv) (i j : ℕ) (acc : PairAcc) :
    (innerStep e i acc j).lambdas.length = acc.lambdas.length
    ∧ (innerStep e i acc j).hessians.length = acc.hessians.length := by
  unfold innerStep
  by_cases h : e.retained i j
  · rw [if_pos h]
    simp
  · rw [if_neg h]
    exact ⟨rfl, rfl⟩

theorem innerLoop_lengths (e : PairEnv) (i : ℕ) (l : List ℕ) (acc : PairAcc) :
    (l.foldl (innerStep e i) acc).lambdas.length = acc.lambdas.length
    ∧ (l.foldl (innerStep e i) acc).hessians.length = acc.hessians.length := by
  induction l generalizing acc with
  | nil => exact ⟨rfl, rfl⟩
  | cons x xs ih =>
    simp only [List.foldl_cons]
    have h2 := ih (innerStep e i acc x)
    have h3 := innerStep_lengths e i x acc
    exact ⟨by rw [h2.1, h3.1], by rw [h2.2, h3.2]⟩

theorem foldl_outer_lengths (e : PairEnv) (l : List ℕ) (acc : PairAcc) :
    (l.foldl (outerStep e) acc).lambdas.length = acc.lambdas.length
    ∧ (l.foldl (outerStep e) acc).hessians.length = acc.hessians.length := by
  induction l generalizing acc with
  | nil => exact ⟨rfl, rfl⟩
  | cons x xs ih =>
    simp only [List.foldl_cons]
    have h2 := ih (outerStep e acc x)
    have h3 : (outerStep e acc x).lambdas.length = acc.lambdas.length
        ∧ (outerStep e acc x).hessians.length = acc.hessians.length := by
      unfold outerStep
      by_cases h : e.score.getD (e.high x) 0 = kMinScore
      · rw [if_pos h]; exact ⟨rfl, rfl⟩
      · rw [if_neg h]
        have h4 := innerLoop_lengths e x (List.range (e.loopCnt x))
          { acc with high_sum_lambda := 0, high_sum_hessian := 0 }
        simp [h4.1, h4.2]
    exact ⟨by rw [h2.1, h3.1], by rw [h2.2, h3.2]⟩

theorem pairPhase_lambdas_length (e : PairEnv) :
    (pairPhase e).lambdas.length = e.cnt := by
  unfold pairPhase
  rw [(foldl_outer_lengths e (List.range e.cnt) _).1]
  simp

theorem pairPhase_hessians_length (e : PairEnv) :
    (pairPhase e).hessians.length = e.cnt := by
  unfold pairPhase
  rw [(foldl_outer_lengths e (List.range e.cnt) _).2]
  simp

theorem getD_nonneg (l : List ℚ) (h : ∀ x ∈ l, 0 ≤ x) (n : ℕ) : 0 ≤ l.getD n 0 := by
  rcases lt_or_ge n l.length with hk | hk
  · rw [List.getD_eq_getElem _ _ hk]
    exact h _ (List.getElem_mem hk)
  · rw [List.getD_eq_default _ _ hk]

theorem GetSigmoid_nonneg (st : LambdaCtx) (x : ℚ)
    (h : ∀ y ∈ st.sigmoid_table_, 0 ≤ y) : 0 ≤ GetSigmoid st x := by
  unfold GetSigmoid
  split_ifs <;> exact getD_nonneg _ h _

theorem retained_label_lt (e : PairEnv) (i j : ℕ) (hr : e.retained i j) :
    e.label.getD (e.low i j) 0 < e.label.getD (e.high i) 0 := by
  have h2 := hr.2
  push_neg at h2
  exact h2.1

theorem deltaPairNDCG_nonneg (e : PairEnv) (i j : ℕ) (hcnt : 0 < e.cnt)
    (Himd : 0 ≤ e.imd)
    (Hgain : ∀ a b : ℕ, a ≤ b → b < e.st.label_gain_.length →
      e.st.label_gain_.getD a 0 ≤ e.st.label_gain_.getD b 0)
    (Hlab : ∀ k : ℕ, k < e.cnt → e.label.getD k 0 < e.st.label_gain_.length)
    (hr : e.retained i j) : 0 ≤ e.deltaPairNDCG i j := by
  have hlt := retained_label_lt e i j hr
  have hgap : 0 ≤ e.st.label_gain_.getD (e.label.getD (e.high i) 0) 0
      - e.st.label_gain_.getD (e.label.getD (e.low i j) 0) 0 := by
    have := Hgain (e.label.getD (e.low i j) 0) (e.label.getD (e.high i) 0)
      (le_of_lt hlt) (Hlab (e.high i) (high_lt e i hcnt))
    linarith
  have hbase : 0 ≤ (e.st.label_gain_.getD (e.label.getD (e.high i) 0) 0
      - e.st.label_gain_.getD (e.label.getD (e.low i j) 0) 0)
      * |e.st.discount i - e.st.discount (e.curJ i j)| * e.imd :=
    mul_nonneg (mul_nonneg hgap (abs_nonneg _)) Himd
  unfold PairEnv.deltaPairNDCG
  simp only
  split_ifs with hc
  · apply div_nonneg hbase
    positivity
  · exact hbase

theorem pLambda_nonpos (e : PairEnv) (i j : ℕ) (hcnt : 0 < e.cnt)
    (Hσ : 0 ≤ e.st.sigmoid_)
    (Htab : ∀ y ∈ e.st.sigmoid_table_, 0 ≤ y)
    (Himd : 0 ≤ e.imd)
    (Hgain : ∀ a b : ℕ, a ≤ b → b < e.st.label_gain_.length →
      e.st.label_gain_.getD a 0 ≤ e.st.label_gain_.getD b 0)
    (Hlab : ∀ k : ℕ, k < e.cnt → e.label.getD k 0 < e.st.label_gain_.length)
    (hr : e.retained i j) : e.pLambda i j ≤ 0 := by
  have hd := deltaPairNDCG_nonneg e i j hcnt Himd Hgain Hlab hr
  have hs := GetSigmoid_nonneg e.st
    (e.score.getD (e.high i) 0 - e.score.getD (e.low i j) 0) Htab
  have hp : GetSigmoid e.st (e.score.getD (e.high i) 0 - e.score.getD (e.low i j) 0)
      * (-e.st.sigmoid_ * e.deltaPairNDCG i j) ≤ 0 := by
    have h1 : 0 ≤ GetSigmoid e.st
        (e.score.getD (e.high i) 0 - e.score.getD (e.low i j) 0)
        * (e.st.sigmoid_ * e.deltaPairNDCG i j) :=
      mul_nonneg hs (mul_nonneg Hσ hd)
    nlinarith
  have hf : 0 ≤ e.factor i := by
    unfold PairEnv.factor
    apply div_nonneg <;> positivity
  unfold PairEnv.pLambda
  simp only
  split_ifs
  · nlinarith
  · exact hp

theorem getD_range_map (cnt k : ℕ) (f : ℕ → ℚ) (hk : k < cnt) :
    ((List.range cnt).map f).getD k 0 = f k := by
  rw [List.getD_eq_getElem _ _ (by simp [hk])]
  simp

theorem getD_map_mul (l : List ℚ) (c : ℚ) (k : ℕ) (hk : k < l.length) :
    (l.map (· * c)).getD k 0 = l.getD k 0 * c := by
  rw [List.getD_eq_getElem _ _ (by simp [hk]), List.getElem_map,
    List.getD_eq_getElem _ _ hk]

/-- Claim C3: in the Lambdarank kernel the accumulator sum_lambdas equals
the sum over all retained pairs of 2 * |lambda contribution| (using the
operating conditions the code establishes elsewhere: non-negative sigmoid
steepness, non-negative sigmoid-table entries, non-negative stored
inverse max DCG, and label gains monotone over the validated label
range); and when lambdarank_norm is enabled and sum_lambdas > 0, every
document's lambda and hessian in the query is rescaled by the factor
log2(1 + sum_lambdas) / sum_lambdas before the per-example weight
multiplication. -/
theorem C3_sum_lambdas_normalization (st : LambdaCtx) (sample : Bool)
    (query_id offset cnt : ℕ) (sample_pair : List (List ℤ))
    (label : List ℕ) (score : List ℚ)
    (Hσ : 0 ≤ st.sigmoid_)
    (Htab : ∀ y ∈ st.sigmoid_table_, 0 ≤ y)
    (Himd : 0 ≤ st.inverse_max_dcgs_.getD query_id 0)
    (Hgain : ∀ a b : ℕ, a ≤ b → b < st.label_gain_.length →
      st.label_gain_.getD a 0 ≤ st.label_gain_.getD b 0)
    (Hlab : ∀ k : ℕ, k < cnt → label.getD k 0 < st.label_gain_.length) :
    (pairPhase ⟨st, sample, query_id, offset, cnt, sample_pair, label, score⟩).sum_lambdas
      = sumLambdasSpec ⟨st, sample, query_id, offset, cnt, sample_pair, label, score⟩
    ∧ (st.norm_ = true →
      0 < (pairPhase ⟨st, sample, query_id, offset, cnt, sample_pair,
            label, score⟩).sum_lambdas →
      ∀ k, k < cnt →
      (lambdarankGetGradientsForOneQueryInner st sample query_id offset cnt
          sample_pair label score).1.getD k 0
        = (pairPhase ⟨st, sample, query_id, offset, cnt, sample_pair,
              label, score⟩).lambdas.getD k 0
          * (st.log2 (1 + (pairPhase ⟨st, sample, query_id, offset, cnt, sample_pair,
                label, score⟩).sum_lambdas)
            / (pairPhase ⟨st, sample, query_id, offset, cnt, sample_pair,
                label, score⟩).sum_lambdas)
          * weightFactor st offset k
      ∧ (lambdarankGetGradientsForOneQueryInner st sample query_id offset cnt
          sample_pair label score).2.getD k 0
        = (pairPhase ⟨st, sample, query_id, offset, cnt, sample_pair,
              label, score⟩).hessians.getD k 0
          * (st.log2 (1 + (pairPhase ⟨st, sample, query_id, offset, cnt, sample_pair,
                label, score⟩).sum_lambdas)
            / (pairPhase ⟨st, sample, query_id, offset, cnt, sample_pair,
                label, score⟩).sum_lambdas)
          * weightFactor st offset k) := by
  constructor
  · rw [pairPhase_sum_lambdas]
    unfold sumLambdasSpec
    apply congrArg List.sum
    apply List.map_congr_left
    intro i hi
    have hcnt : 0 < cnt := lt_of_le_of_lt (Nat.zero_le i) (List.mem_range.mp hi)
    by_cases hsent : (⟨st, sample, query_id, offset, cnt, sample_pair, label,
        score⟩ : PairEnv).score.getD
        ((⟨st, sample, query_id, offset, cnt, sample_pair, label,
          score⟩ : PairEnv).high i) 0 = kMinScore
    · rw [if_pos hsent, if_pos hsent]
    · rw [if_neg hsent, if_neg hsent]
      apply congrArg List.sum
      apply List.map_congr_left
      intro j hj
      by_cases hr : (⟨st, sample, query_id, offset, cnt, sample_pair, label,
          score⟩ : PairEnv).retained i j
      · rw [if_pos hr, if_pos hr]
        rw [abs_of_nonpos (pLambda_nonpos
          (⟨st, sample, query_id, offset, cnt, sample_pair, label, score⟩ : PairEnv)
          i j hcnt Hσ Htab
          (show 0 ≤ PairEnv.imd
            ⟨st, sample, query_id, offset, cnt, sample_pair, label, score⟩ from Himd)
          Hgain Hlab hr)]
        ring
      · rw [if_neg hr, if_neg hr]
  · intro hn hs k hk
    have hcond : st.norm_ = true
        ∧ 0 < (pairPhase ⟨st, sample, query_id, offset, cnt, sample_pair,
            label, score⟩).sum_lambdas := ⟨hn, hs⟩
    have hlenl := pairPhase_lambdas_length
      (⟨st, sample, query_id, offset, cnt, sample_pair, label, score⟩ : PairEnv)
    have hlenh := pairPhase_hessians_length
      (⟨st, sample, query_id, offset, cnt, sample_pair, label, score⟩ : PairEnv)
    unfold lambdarankGetGradientsForOneQueryInner
    simp only
    unfold normPhase
    rw [if_pos hcond]
    unfold weightPhase weightFactor
    cases hw : st.weights_ with
    | none =>
      simp only
      constructor
      · rw [getD_map_mul _ _ _ (by rw [hlenl]; exact hk)]
        ring
      · rw [getD_map_mul _ _ _ (by rw [hlenh]; exact hk)]
        ring
    | some w =>
      simp only
      constructor
      · rw [getD_range_map _ _ _ hk, getD_map_mul _ _ _ (by rw [hlenl]; exact hk)]
      · rw [getD_range_map _ _ _ hk, getD_map_mul _ _ _ (by rw [hlenh]; exact hk)]

/-- Witness for C3 on a two-document query with labels [1, 0] and scores
[1/2, 1/4]. -/
theorem C3_sum_lambdas_normalization_witness :
    ((0:ℚ) ≤ wCtx3.sigmoid_
      ∧ (∀ y ∈ wCtx3.sigmoid_table_, (0:ℚ) ≤ y)
      ∧ (0:ℚ) ≤ wCtx3.inverse_max_dcgs_.getD 0 0
      ∧ (∀ a b : ℕ, a ≤ b → b < wCtx3.label_gain_.length →
          wCtx3.label_gain_.getD a 0 ≤ wCtx3.label_gain_.getD b 0)
      ∧ (∀ k : ℕ, k < 2 → List.getD [1, 0] k 0 < wCtx3.label_gain_.length))
    ∧ ((pairPhase ⟨wCtx3, false, 0, 0, 2, [], [1, 0], [1/2, 1/4]⟩).sum_lambdas
        = sumLambdasSpec ⟨wCtx3, false, 0, 0, 2, [], [1, 0], [1/2, 1/4]⟩
      ∧ (wCtx3.norm_ = true →
        0 < (pairPhase ⟨wCtx3, false, 0, 0, 2, [], [1, 0], [1/2, 1/4]⟩).sum_lambdas →
        ∀ k, k < 2 →
        (lambdarankGetGradientsForOneQueryInner wCtx3 false 0 0 2 []
            [1, 0] [1/2, 1/4]).1.getD k 0
          = (pairPhase ⟨wCtx3, false, 0, 0, 2, [], [1, 0], [1/2, 1/4]⟩).lambdas.getD k 0
            * (wCtx3.log2 (1 + (pairPhase ⟨wCtx3, false, 0, 0, 2, [], [1, 0],
                  [1/2, 1/4]⟩).sum_lambdas)
              / (pairPhase ⟨wCtx3, false, 0, 0, 2, [], [1, 0],
                  [1/2, 1/4]⟩).sum_lambdas)
            * weightFactor wCtx3 0 k
        ∧ (lambdarankGetGradientsForOneQueryInner wCtx3 false 0 0 2 []
            [1, 0] [1/2, 1/4]).2.getD k 0
          = (pairPhase ⟨wCtx3, false, 0, 0, 2, [], [1, 0], [1/2, 1/4]⟩).hessians.getD k 0
            * (wCtx3.log2 (1 + (pairPhase ⟨wCtx3, false, 0, 0, 2, [], [1, 0],
                  [1/2, 1/4]⟩).sum_lambdas)
              / (pairPhase ⟨wCtx3, false, 0, 0, 2, [], [1, 0],
                  [1/2, 1/4]⟩).sum_lambdas)
            * weightFactor wCtx3 0 k)) := by
  have hσ : (0:ℚ) ≤ wCtx3.sigmoid_ := by norm_num [wCtx3]
  have htab : ∀ y ∈ wCtx3.sigmoid_table_, (0:ℚ) ≤ y := by
    intro y hy
    have : y = 1/2 := by simpa [wCtx3] using hy
    rw [this]
    norm_num
  have himd : (0:ℚ) ≤ wCtx3.inverse_max_dcgs_.getD 0 0 := by
    norm_num [wCtx3]
  have hgain : ∀ a b : ℕ, a ≤ b → b < wCtx3.label_gain_.length →
      wCtx3.label_gain_.getD a 0 ≤ wCtx3.label_gain_.getD b 0 := by
    intro a b hab hb
    have hb2 : b < 2 := by simpa [wCtx3] using hb
    interval_cases b
    · interval_cases a
      · norm_num [wCtx3]
    · interval_cases a
      · norm_num [wCtx3]
      · norm_num [wCtx3]
  have hlab : ∀ k : ℕ, k < 2 → List.getD [1, 0] k 0 < wCtx3.label_gain_.length := by
    intro k hk
    interval_cases k <;> simp [wCtx3]
  exact ⟨⟨hσ, htab, himd, hgain, hlab⟩,
    C3_sum_lambdas_normalization wCtx3 false 0 0 2 [] [1, 0] [1/2, 1/4]
      hσ htab himd hgain hlab⟩

theorem getD_map_range {α : Type} (d : α) (cnt k : ℕ) (f : ℕ → α) (hk : k < cnt) :
    ((List.range cnt).map f).getD k d = f k := by
  rw [List.getD_eq_getElem _ _ (by simp [hk])]
  simp

theorem mem_segment_of_getD (sc : List ℤ) (s e j : ℕ) (hj : j < e - s)
    (hlen : e ≤ sc.length) :
    sc.getD (s + j) 0 ∈ (sc.drop s).take (e - s) := by
  have hsj : s + j < sc.length := by omega
  have hjl : j < ((sc.drop s).take (e - s)).length := by
    rw [List.length_take, List.length_drop]
    omega
  have hval : ((sc.drop s).take (e - s))[j] = sc[s + j] := by
    rw [List.getElem_take, List.getElem_drop]
  rw [List.getD_eq_getElem _ _ hsj, ← hval]
  exact List.getElem_mem hjl

/-- Claim C4: GetGradients takes the sampled path iff the sampling
threshold is positive and the query size strictly exceeds it; in that
case each document's candidate set has size
min(threshold, number of inferior candidates) and is drawn from the
document's precomputed inferior-candidate segment (that the draw is
uniform without replacement is the contract of the external
Random::Sample utility modelled by rng); and in the kernel each sampled
pair's lambda and hessian contribution is multiplied by the recovery
factor (number of inferior candidates) / (number of sampled
candidates). -/
theorem C4_sampled_path (ctx : RankingCtx) (rng : ℕ → ℕ → List ℕ)
    (offset cnt : ℕ)
    (Hrng_len : ∀ n k : ℕ, 0 < k → k < n → (rng n k).length = k)
    (Hrng_lt : ∀ n k : ℕ, 0 < k → k < n → ∀ x ∈ rng n k, x < n)
    (Hbound : ∀ i : ℕ, i < cnt →
      ctx.sample_candidates_boundaries_.getD (offset + i + 1) 0
        ≤ ctx.sample_candidates_.length) :
    ((Sample ctx rng offset cnt).isSome
      ↔ 0 < ctx.sample_cnt_ ∧ ctx.sample_cnt_ < (cnt : ℤ))
    ∧ (∀ sp, Sample ctx rng offset cnt = some sp →
        ∀ i : ℕ, i < cnt →
        (sp.getD i []).length
          = min ctx.sample_cnt_.toNat
              (ctx.sample_candidates_boundaries_.getD (offset + i + 1) 0
                - ctx.sample_candidates_boundaries_.getD (offset + i) 0)
        ∧ ∀ c ∈ sp.getD i [],
            c ∈ (ctx.sample_candidates_.drop
                  (ctx.sample_candidates_boundaries_.getD (offset + i) 0)).take
                (ctx.sample_candidates_boundaries_.getD (offset + i + 1) 0
                  - ctx.sample_candidates_boundaries_.getD (offset + i) 0))
    ∧ (∀ (st : LambdaCtx) (query_id : ℕ) (sample_pair : List (List ℤ))
        (label : List ℕ) (score : List ℚ) (i j : ℕ),
        PairEnv.pLambda
            ⟨st, true, query_id, offset, cnt, sample_pair, label, score⟩ i j
          = GetSigmoid st
              (score.getD (PairEnv.high
                ⟨st, true, query_id, offset, cnt, sample_pair, label, score⟩ i) 0
              - score.getD (PairEnv.low
                ⟨st, true, query_id, offset, cnt, sample_pair, label, score⟩ i j) 0)
            * (-st.sigmoid_ * PairEnv.deltaPairNDCG
                ⟨st, true, query_id, offset, cnt, sample_pair, label, score⟩ i j)
            * PairEnv.factor
                ⟨st, true, query_id, offset, cnt, sample_pair, label, score⟩ i
        ∧ PairEnv.pHessian
            ⟨st, true, query_id, offset, cnt, sample_pair, label, score⟩ i j
          = GetSigmoid st
              (score.getD (PairEnv.high
                ⟨st, true, query_id, offset, cnt, sample_pair, label, score⟩ i) 0
              - score.getD (PairEnv.low
                ⟨st, true, query_id, offset, cnt, sample_pair, label, score⟩ i j) 0)
            * (1 - GetSigmoid st
              (score.getD (PairEnv.high
                ⟨st, true, query_id, offset, cnt, sample_pair, label, score⟩ i) 0
              - score.getD (PairEnv.low
                ⟨st, true, query_id, offset, cnt, sample_pair, label, score⟩ i j) 0))
            * (st.sigmoid_ * st.sigmoid_ * PairEnv.deltaPairNDCG
                ⟨st, true, query_id, offset, cnt, sample_pair, label, score⟩ i j)
            * PairEnv.factor
                ⟨st, true, query_id, offset, cnt, sample_pair, label, score⟩ i
        ∧ PairEnv.factor
            ⟨st, true, query_id, offset, cnt, sample_pair, label, score⟩ i
          = ((st.sample_candidates_boundaries_.getD
                (offset + PairEnv.high ⟨st, true, query_id, offset, cnt,
                  sample_pair, label, score⟩ i + 1) 0
              - st.sample_candidates_boundaries_.getD
                (offset + PairEnv.high ⟨st, true, query_id, offset, cnt,
                  sample_pair, label, score⟩ i) 0 : ℕ) : ℚ)
            / ((sample_pair.getD (PairEnv.high ⟨st, true, query_id, offset, cnt,
                sample_pair, label, score⟩ i) []).length : ℚ)) := by
  refine ⟨?_, ?_, ?_⟩
  · unfold Sample
    by_cases hC : ctx.sample_cnt_ ≤ 0 ∨ (cnt : ℤ) ≤ ctx.sample_cnt_
    · rw [if_pos hC]
      simp only [Option.isSome_none, Bool.false_eq_true, false_iff]
      omega
    · rw [if_neg hC]
      simp only [Option.isSome_some, true_iff]
      omega
  · intro sp hsp i hi
    unfold Sample at hsp
    by_cases hC : ctx.sample_cnt_ ≤ 0 ∨ (cnt : ℤ) ≤ ctx.sample_cnt_
    · rw [if_pos hC] at hsp
      exact absurd hsp (by simp)
    · rw [if_neg hC] at hsp
      have hsp2 := Option.some.inj hsp
      subst hsp2
      rw [getD_map_range _ _ _ _ hi]
      have hscpos : 0 < ctx.sample_cnt_ := by omega
      set s := ctx.sample_candidates_boundaries_.getD (offset + i) 0 with hs
      set en := ctx.sample_candidates_boundaries_.getD (offset + i + 1) 0 with hen
      simp only
      split_ifs with hA
      · constructor
        · rw [List.length_map, List.length_range]
          omega
        · intro c hc
          obtain ⟨j, hj, hcj⟩ := List.mem_map.mp hc
          have hjlt : j < en - s := List.mem_range.mp hj
          rw [← hcj]
          exact mem_segment_of_getD _ s en j hjlt (Hbound i hi)
      · constructor
        · rw [List.length_map,
            Hrng_len (en - s) ctx.sample_cnt_.toNat (by omega) (by omega)]
          omega
        · intro c hc
          obtain ⟨j, hj, hcj⟩ := List.mem_map.mp hc
          have hjlt : j < en - s :=
            Hrng_lt (en - s) ctx.sample_cnt_.toNat (by omega) (by omega) j hj
          rw [← hcj]
          exact mem_segment_of_getD _ s en j hjlt (Hbound i hi)
  · intro st query_id sample_pair label score i j
    refine ⟨?_, ?_, rfl⟩
    · unfold PairEnv.pLambda
      simp only [if_true, eq_self_iff_true]
    · unfold PairEnv.pHessian
      simp only [if_true, eq_self_iff_true]

/-- Witness for C4 at the concrete sampling state wCtx4. -/
theorem C4_sampled_path_witness :
    ((∀ n k : ℕ, 0 < k → k < n → (wRng n k).length = k)
      ∧ (∀ n k : ℕ, 0 < k → k < n → ∀ x ∈ wRng n k, x < n)
      ∧ (∀ i : ℕ, i < 2 →
          wCtx4.sample_candidates_boundaries_.getD (0 + i + 1) 0
            ≤ wCtx4.sample_candidates_.length))
    ∧ (((Sample wCtx4 wRng 0 2).isSome
        ↔ 0 < wCtx4.sample_cnt_ ∧ wCtx4.sample_cnt_ < ((2 : ℕ) : ℤ))
      ∧ (∀ sp, Sample wCtx4 wRng 0 2 = some sp →
          ∀ i : ℕ, i < 2 →
          (sp.getD i []).length
            = min wCtx4.sample_cnt_.toNat
                (wCtx4.sample_candidates_boundaries_.getD (0 + i + 1) 0
                  - wCtx4.sample_candidates_boundaries_.getD (0 + i) 0)
          ∧ ∀ c ∈ sp.getD i [],
              c ∈ (wCtx4.sample_candidates_.drop
                    (wCtx4.sample_candidates_boundaries_.getD (0 + i) 0)).take
                  (wCtx4.sample_candidates_boundaries_.getD (0 + i + 1) 0
                    - wCtx4.sample_candidates_boundaries_.getD (0 + i) 0))
      ∧ (∀ (st : LambdaCtx) (query_id : ℕ) (sample_pair : List (List ℤ))
          (label : List ℕ) (score : List ℚ) (i j : ℕ),
          PairEnv.pLambda
              ⟨st, true, query_id, 0, 2, sample_pair, label, score⟩ i j
            = GetSigmoid st
                (score.getD (PairEnv.high
                  ⟨st, true, query_id, 0, 2, sample_pair, label, score⟩ i) 0
                - score.getD (PairEnv.low
                  ⟨st, true, query_id, 0, 2, sample_pair, label, score⟩ i j) 0)
              * (-st.sigmoid_ * PairEnv.deltaPairNDCG
                  ⟨st, true, query_id, 0, 2, sample_pair, label, score⟩ i j)
              * PairEnv.factor
                  ⟨st, true, query_id, 0, 2, sample_pair, label, score⟩ i
          ∧ PairEnv.pHessian
              ⟨st, true, query_id, 0, 2, sample_pair, label, score⟩ i j
            = GetSigmoid st
                (score.getD (PairEnv.high
                  ⟨st, true, query_id, 0, 2, sample_pair, label, score⟩ i) 0
                - score.getD (PairEnv.low
                  ⟨st, true, query_id, 0, 2, sample_pair, label, score⟩ i j) 0)
              * (1 - GetSigmoid st
                (score.getD (PairEnv.high
                  ⟨st, true, query_id, 0, 2, sample_pair, label, score⟩ i) 0
                - score.getD (PairEnv.low
                  ⟨st, true, query_id, 0, 2, sample_pair, label, score⟩ i j) 0))
              * (st.sigmoid_ * st.sigmoid_ * PairEnv.deltaPairNDCG
                  ⟨st, true, query_id, 0, 2, sample_pair, label, score⟩ i j)
              * PairEnv.factor
                  ⟨st, true, query_id, 0, 2, sample_pair, label, score⟩ i
          ∧ PairEnv.factor
              ⟨st, true, query_id, 0, 2, sample_pair, label, score⟩ i
            = ((st.sample_candidates_boundaries_.getD
                  (0 + PairEnv.high ⟨st, true, query_id, 0, 2,
                    sample_pair, label, score⟩ i + 1) 0
                - st.sample_candidates_boundaries_.getD
                  (0 + PairEnv.high ⟨st, true, query_id, 0, 2,
                    sample_pair, label, score⟩ i) 0 : ℕ) : ℚ)
              / ((sample_pair.getD (PairEnv.high ⟨st, true, query_id, 0, 2,
                  sample_pair, label, score⟩ i) []).length : ℚ))) := by
  have h1 : ∀ n k : ℕ, 0 < k → k < n → (wRng n k).length = k := by
    intro n k _ _
    simp [wRng]
  have h2 : ∀ n k : ℕ, 0 < k → k < n → ∀ x ∈ wRng n k, x < n := by
    intro n k _ hkn x hx
    have := List.mem_range.mp (by simpa [wRng] using hx)
    omega
  have h3 : ∀ i : ℕ, i < 2 →
      wCtx4.sample_candidates_boundaries_.getD (0 + i + 1) 0
        ≤ wCtx4.sample_candidates_.length := by
    decide
  exact ⟨⟨h1, h2, h3⟩, C4_sampled_path wCtx4 wRng 0 2 h1 h2 h3⟩

/-- Claim C6: for RankXENDCG the sampled-candidate overload computes
exactly what the unsampled overload computes on the same query inputs and
the same random draws; the sample_pair argument (and the sample template
parameter) have no effect on the result. -/
theorem C6_xendcg_sampled_noop (softmax : List ℚ → ℕ → List ℚ)
    (wts : Option (List ℚ)) (gammas : List ℚ) (query_id offset cnt : ℕ)
    (sample_pair : List (List ℤ)) (label : List ℕ) (score : List ℚ)
    (lambdas0 hessians0 : List ℚ) :
    xendcgGetGradientsForOneQueryS softmax wts gammas query_id offset cnt
        sample_pair label score lambdas0 hessians0
      = xendcgGetGradientsForOneQueryU softmax wts gammas query_id offset cnt
        label score lambdas0 hessians0 := rfl

/-- Claim C1 evaluation at a failing input: a two-document query with all
labels 0 and gamma draws 1 - 2^-60 has |sum_labels| = 2^-59 < kEpsilon,
and the kernel's early return leaves the caller's buffer slice holding
its previous contents [5, 7] and [11, 13] instead of overwriting it with
zeros. -/
theorem C1_code_bug_eval :
    xendcgGetGradientsForOneQueryU (fun s _ => s) none [wGamma, wGamma] 0 0 2
        [0, 0] [0, 0] [5, 7] [11, 13]
      = ([5, 7], [11, 13])
    ∧ (([5, 7] : List ℚ).getD 0 0 ≠ 0) := by
  constructor
  · unfold xendcgGetGradientsForOneQueryU xendcgGetGradientsForOneQueryInner
    rw [if_pos]
    norm_num [phi, wGamma, kEpsilon, List.range_succ]
    rw [abs_of_pos (by norm_num)]
    norm_num
  · norm_num

theorem getD_drop (l : List ℚ) (n m : ℕ) : (l.drop n).getD m 0 = l.getD (n + m) 0 := by
  rw [List.getD_eq_getElem?_getD, List.getD_eq_getElem?_getD, List.getElem?_drop]

theorem getD_take (l : List ℚ) (n m : ℕ) (h : m < n) :
    (l.take n).getD m 0 = l.getD m 0 := by
  rw [List.getD_eq_getElem?_getD, List.getD_eq_getElem?_getD, List.getElem?_take,
    if_pos h]

theorem writeSlice_length (buf vals : List ℚ) (start : ℕ)
    (h : start + vals.length ≤ buf.length) :
    (writeSlice buf start vals).length = buf.length := by
  unfold writeSlice
  simp only [List.length_append, List.length_take, List.length_drop]
  omega

theorem writeSlice_getD_lt (buf vals : List ℚ) (start j : ℕ)
    (hj : j < start) (hs : start ≤ buf.length) :
    (writeSlice buf start vals).getD j 0 = buf.getD j 0 := by
  unfold writeSlice
  rw [List.append_assoc,
    List.getD_append _ _ _ _ (by rw [List.length_take]; omega),
    getD_take _ _ _ hj]

theorem writeSlice_getD_mid (buf vals : List ℚ) (start j : ℕ)
    (hj : j < vals.length) (hs : start ≤ buf.length) :
    (writeSlice buf start vals).getD (start + j) 0 = vals.getD j 0 := by
  unfold writeSlice
  rw [List.append_assoc,
    List.getD_append_right _ _ _ _ (by rw [List.length_take]; omega)]
  have hlen : (buf.take start).length = start := by rw [List.length_take]; omega
  rw [hlen, Nat.add_sub_cancel_left, List.getD_append _ _ _ _ hj]

theorem writeSlice_getD_ge (buf vals : List ℚ) (start j : ℕ)
    (hj : start + vals.length ≤ j) (hs : start + vals.length ≤ buf.length) :
    (writeSlice buf start vals).getD j 0 = buf.getD j 0 := by
  unfold writeSlice
  have hlen : (buf.take start).length = start := by rw [List.length_take]; omega
  rw [List.append_assoc]
  rw [List.getD_append_right _ _ _ _ (by rw [hlen]; omega)]
  rw [hlen]
  rw [List.getD_append_right _ _ _ _ (by omega)]
  rw [getD_drop]
  congr 1
  omega

theorem take_drop_eq_of_agree (l l' : List ℚ) (s c : ℕ)
    (hlen : l'.length = l.length)
    (h : ∀ j, s ≤ j → j < s + c → l'.getD j 0 = l.getD j 0) :
    (l'.drop s).take c = (l.drop s).take c := by
  apply List.ext_getElem
  · simp [hlen]
  · intro k hk1 hk2
    have hks : s + k < l'.length := by
      simp [List.length_take, List.length_drop] at hk1
      omega
    have hgd := h (s + k) (by omega) (by
      simp [List.length_take, List.length_drop] at hk1
      omega)
    rw [List.getD_eq_getElem _ _ hks] at hgd
    rw [List.getD_eq_getElem _ _ (by omega : s + k < l.length)] at hgd
    rw [List.getElem_take, List.getElem_drop, List.getElem_take, List.getElem_drop]
    exact hgd

theorem qb_chain (ctx : RankingCtx)
    (Hmono : ∀ q, q < ctx.num_queries_ →
      ctx.query_boundaries_.getD q 0 ≤ ctx.query_boundaries_.getD (q + 1) 0) :
    ∀ a b : ℕ, a ≤ b → b ≤ ctx.num_queries_ →
      ctx.query_boundaries_.getD a 0 ≤ ctx.query_boundaries_.getD b 0 := by
  intro a b hab
  induction b, hab using Nat.le_induction with
  | base => intro _; exact le_refl _
  | succ b hab ih =>
    intro hb
    exact le_trans (ih (by omega)) (Hmono b (by omega))

/-- Induction core for claim C7: after processing the first n queries, the
buffers keep their length, everything at or above boundary n and
everything below boundary 0 is untouched, and each processed query's
slice holds exactly its kernel result computed from that query's own
input slices. -/
theorem GetGradients_aux (ctx : RankingCtx) (rng : ℕ → ℕ → List ℕ)
    (kU : ℕ → ℕ → ℕ → List ℕ → List ℚ → List ℚ → List ℚ → List ℚ × List ℚ)
    (kS : ℕ → ℕ → ℕ → List (List ℤ) → List ℕ → List ℚ → List ℚ → List ℚ →
      List ℚ × List ℚ)
    (score lambdas0 hessians0 : List ℚ)
    (HkU : ∀ q s c ll ss pl ph,
      (kU q s c ll ss pl ph).1.length = c ∧ (kU q s c ll ss pl ph).2.length = c)
    (HkS : ∀ q s c sp ll ss pl ph,
      (kS q s c sp ll ss pl ph).1.length = c ∧ (kS q s c sp ll ss pl ph).2.length = c)
    (Hmono : ∀ q, q < ctx.num_queries_ →
      ctx.query_boundaries_.getD q 0 ≤ ctx.query_boundaries_.getD (q + 1) 0)
    (HL : ctx.query_boundaries_.getD ctx.num_queries_ 0 ≤ lambdas0.length)
    (HH : ctx.query_boundaries_.getD ctx.num_queries_ 0 ≤ hessians0.length)
    (n : ℕ) :
    n ≤ ctx.num_queries_ →
    ((List.range n).foldl (ggStep ctx rng kU kS score)
        (lambdas0, hessians0)).1.length = lambdas0.length
    ∧ ((List.range n).foldl (ggStep ctx rng kU kS score)
        (lambdas0, hessians0)).2.length = hessians0.length
    ∧ (∀ j, ctx.query_boundaries_.getD n 0 ≤ j →
        ((List.range n).foldl (ggStep ctx rng kU kS score)
          (lambdas0, hessians0)).1.getD j 0 = lambdas0.getD j 0
        ∧ ((List.range n).foldl (ggStep ctx rng kU kS score)
          (lambdas0, hessians0)).2.getD j 0 = hessians0.getD j 0)
    ∧ (∀ j, j < ctx.query_boundaries_.getD 0 0 →
        ((List.range n).foldl (ggStep ctx rng kU kS score)
          (lambdas0, hessians0)).1.getD j 0 = lambdas0.getD j 0
        ∧ ((List.range n).foldl (ggStep ctx rng kU kS score)
          (lambdas0, hessians0)).2.getD j 0 = hessians0.getD j 0)
    ∧ (∀ q, q < n → ∀ j,
        j < ctx.query_boundaries_.getD (q + 1) 0 - ctx.query_boundaries_.getD q 0 →
        ((List.range n).foldl (ggStep ctx rng kU kS score)
          (lambdas0, hessians0)).1.getD (ctx.query_boundaries_.getD q 0 + j) 0
          = (queryKernelResult ctx rng kU kS score lambdas0 hessians0 q).1.getD j 0
        ∧ ((List.range n).foldl (ggStep ctx rng kU kS score)
          (lambdas0, hessians0)).2.getD (ctx.query_boundaries_.getD q 0 + j) 0
          = (queryKernelResult ctx rng kU kS score lambdas0 hessians0 q).2.getD j 0) := by
  induction n with
  | zero =>
    intro _
    refine ⟨rfl, rfl, fun j _ => ⟨rfl, rfl⟩, fun j _ => ⟨rfl, rfl⟩, fun q hq => absurd hq (by omega)⟩
  | succ n ih =>
    intro hn
    obtain ⟨ih1, ih2, ih3, ih4, ih5⟩ := ih (by omega)
    have hchain := qb_chain ctx Hmono
    have hrw : (List.range (n + 1)).foldl (ggStep ctx rng kU kS score)
        (lambdas0, hessians0)
        = ggStep ctx rng kU kS score
          ((List.range n).foldl (ggStep ctx rng kU kS score) (lambdas0, hessians0)) n := by
      rw [List.range_succ, List.foldl_append, List.foldl_cons, List.foldl_nil]
    rw [hrw]
    have hsn : ctx.query_boundaries_.getD n 0
        ≤ ctx.query_boundaries_.getD (n + 1) 0 := Hmono n (by omega)
    have hnQ : ctx.query_boundaries_.getD (n + 1) 0
        ≤ ctx.query_boundaries_.getD ctx.num_queries_ 0 :=
      hchain (n + 1) ctx.num_queries_ (by omega) (le_refl _)
    have hsc : ctx.query_boundaries_.getD n 0
        + (ctx.query_boundaries_.getD (n + 1) 0 - ctx.query_boundaries_.getD n 0)
        = ctx.query_boundaries_.getD (n + 1) 0 := by omega
    have hsl1 : (((List.range n).foldl (ggStep ctx rng kU kS score)
          (lambdas0, hessians0)).1.drop (ctx.query_boundaries_.getD n 0)).take
        (ctx.query_boundaries_.getD (n + 1) 0 - ctx.query_boundaries_.getD n 0)
        = (lambdas0.drop (ctx.query_boundaries_.getD n 0)).take
          (ctx.query_boundaries_.getD (n + 1) 0 - ctx.query_boundaries_.getD n 0) :=
      take_drop_eq_of_agree _ _ _ _ ih1 (fun j hj _ => (ih3 j hj).1)
    have hsl2 : (((List.range n).foldl (ggStep ctx rng kU kS score)
          (lambdas0, hessians0)).2.drop (ctx.query_boundaries_.getD n 0)).take
        (ctx.query_boundaries_.getD (n + 1) 0 - ctx.query_boundaries_.getD n 0)
        = (hessians0.drop (ctx.query_boundaries_.getD n 0)).take
          (ctx.query_boundaries_.getD (n + 1) 0 - ctx.query_boundaries_.getD n 0) :=
      take_drop_eq_of_agree _ _ _ _ ih2 (fun j hj _ => (ih3 j hj).2)
    have hres : ggStep ctx rng kU kS score
        ((List.range n).foldl (ggStep ctx rng kU kS score) (lambdas0, hessians0)) n
        = (writeSlice ((List.range n).foldl (ggStep ctx rng kU kS score)
              (lambdas0, hessians0)).1 (ctx.query_boundaries_.getD n 0)
            (queryKernelResult ctx rng kU kS score lambdas0 hessians0 n).1,
          writeSlice ((List.range n).foldl (ggStep ctx rng kU kS score)
              (lambdas0, hessians0)).2 (ctx.query_boundaries_.getD n 0)
            (queryKernelResult ctx rng kU kS score lambdas0 hessians0 n).2) := by
      simp only [ggStep, queryKernelResult]
      rw [hsl1, hsl2]
    rw [hres]
    have hqlen : (queryKernelResult ctx rng kU kS score lambdas0 hessians0 n).1.length
          = ctx.query_boundaries_.getD (n + 1) 0 - ctx.query_boundaries_.getD n 0
        ∧ (queryKernelResult ctx rng kU kS score lambdas0 hessians0 n).2.length
          = ctx.query_boundaries_.getD (n + 1) 0 - ctx.query_boundaries_.getD n 0 := by
      simp only [queryKernelResult]
      cases hS : Sample ctx rng (ctx.query_boundaries_.getD n 0)
          (ctx.query_boundaries_.getD (n + 1) 0 - ctx.query_boundaries_.getD n 0) with
      | none => exact ⟨(HkU _ _ _ _ _ _ _).1, (HkU _ _ _ _ _ _ _).2⟩
      | some sp => exact ⟨(HkS _ _ _ _ _ _ _ _).1, (HkS _ _ _ _ _ _ _ _).2⟩
    have hfit1 : ctx.query_boundaries_.getD n 0
        + (queryKernelResult ctx rng kU kS score lambdas0 hessians0 n).1.length
        ≤ ((List.range n).foldl (ggStep ctx rng kU kS score)
          (lambdas0, hessians0)).1.length := by
      rw [hqlen.1, ih1]
      omega
    have hfit2 : ctx.query_boundaries_.getD n 0
        + (queryKernelResult ctx rng kU kS score lambdas0 hessians0 n).2.length
        ≤ ((List.range n).foldl (ggStep ctx rng kU kS score)
          (lambdas0, hessians0)).2.length := by
      rw [hqlen.2, ih2]
      omega
    refine ⟨?_, ?_, ?_, ?_, ?_⟩
    · rw [writeSlice_length _ _ _ hfit1, ih1]
    · rw [writeSlice_length _ _ _ hfit2, ih2]
    · intro j hj
      have hj1 : ctx.query_boundaries_.getD n 0
          + (queryKernelResult ctx rng kU kS score lambdas0 hessians0 n).1.length ≤ j := by
        rw [hqlen.1]; omega
      have hj2 : ctx.query_boundaries_.getD n 0
          + (queryKernelResult ctx rng kU kS score lambdas0 hessians0 n).2.length ≤ j := by
        rw [hqlen.2]; omega
      have hjn : ctx.query_boundaries_.getD n 0 ≤ j := by omega
      constructor
      · rw [writeSlice_getD_ge _ _ _ _ hj1 hfit1]
        exact (ih3 j hjn).1
      · rw [writeSlice_getD_ge _ _ _ _ hj2 hfit2]
        exact (ih3 j hjn).2
    · intro j hj
      have hj0 : j < ctx.query_boundaries_.getD n 0 :=
        lt_of_lt_of_le hj (hchain 0 n (by omega) (by omega))
      constructor
      · rw [writeSlice_getD_lt _ _ _ _ hj0 (by rw [ih1]; omega)]
        exact (ih4 j hj).1
      · rw [writeSlice_getD_lt _ _ _ _ hj0 (by rw [ih2]; omega)]
        exact (ih4 j hj).2
    · intro q hq j hj
      rcases Nat.lt_succ_iff_lt_or_eq.mp hq with hqn | hqn
      · have hqchain : ctx.query_boundaries_.getD (q + 1) 0
            ≤ ctx.query_boundaries_.getD n 0 :=
          hchain (q + 1) n (by omega) (by omega)
        have hjlt : ctx.query_boundaries_.getD q 0 + j
            < ctx.query_boundaries_.getD n 0 := by
          have hmq := Hmono q (by omega)
          omega
        constructor
        · rw [writeSlice_getD_lt _ _ _ _ hjlt (by rw [ih1]; omega)]
          exact (ih5 q hqn j hj).1
        · rw [writeSlice_getD_lt _ _ _ _ hjlt (by rw [ih2]; omega)]
          exact (ih5 q hqn j hj).2
      · subst hqn
        constructor
        · rw [writeSlice_getD_mid _ _ _ _ (by rw [hqlen.1]; omega) (by rw [ih1]; omega)]
        · rw [writeSlice_getD_mid _ _ _ _ (by rw [hqlen.2]; omega) (by rw [ih2]; omega)]

/-- Claim C7: GetGradients writes only into each query's own half-open
output slice [query_boundaries[q], query_boundaries[q+1]) (entries below
boundary 0 and at or above boundary Q keep their previous contents and
lengths are preserved), every query's slice holds exactly the kernel
result computed from that query's own label/score/buffer slices, and the
values written for query q do not change when scores outside query q's
slice are altered. -/
theorem C7_query_slice_independence (ctx : RankingCtx) (rng : ℕ → ℕ → List ℕ)
    (kU : ℕ → ℕ → ℕ → List ℕ → List ℚ → List ℚ → List ℚ → List ℚ × List ℚ)
    (kS : ℕ → ℕ → ℕ → List (List ℤ) → List ℕ → List ℚ → List ℚ → List ℚ →
      List ℚ × List ℚ)
    (score lambdas0 hessians0 : List ℚ)
    (HkU : ∀ q s c ll ss pl ph,
      (kU q s c ll ss pl ph).1.length = c ∧ (kU q s c ll ss pl ph).2.length = c)
    (HkS : ∀ q s c sp ll ss pl ph,
      (kS q s c sp ll ss pl ph).1.length = c ∧ (kS q s c sp ll ss pl ph).2.length = c)
    (Hmono : ∀ q, q < ctx.num_queries_ →
      ctx.query_boundaries_.getD q 0 ≤ ctx.query_boundaries_.getD (q + 1) 0)
    (HL : ctx.query_boundaries_.getD ctx.num_queries_ 0 ≤ lambdas0.length)
    (HH : ctx.query_boundaries_.getD ctx.num_queries_ 0 ≤ hessians0.length) :
    ((GetGradients ctx rng kU kS score lambdas0 hessians0).1.length = lambdas0.length
      ∧ (GetGradients ctx rng kU kS score lambdas0 hessians0).2.length
        = hessians0.length)
    ∧ (∀ j, (j < ctx.query_boundaries_.getD 0 0
        ∨ ctx.query_boundaries_.getD ctx.num_queries_ 0 ≤ j) →
        (GetGradients ctx rng kU kS score lambdas0 hessians0).1.getD j 0
          = lambdas0.getD j 0
        ∧ (GetGradients ctx rng kU kS score lambdas0 hessians0).2.getD j 0
          = hessians0.getD j 0)
    ∧ (∀ q, q < ctx.num_queries_ → ∀ j,
        j < ctx.query_boundaries_.getD (q + 1) 0 - ctx.query_boundaries_.getD q 0 →
        (GetGradients ctx rng kU kS score lambdas0 hessians0).1.getD
            (ctx.query_boundaries_.getD q 0 + j) 0
          = (queryKernelResult ctx rng kU kS score lambdas0 hessians0 q).1.getD j 0
        ∧ (GetGradients ctx rng kU kS score lambdas0 hessians0).2.getD
            (ctx.query_boundaries_.getD q 0 + j) 0
          = (queryKernelResult ctx rng kU kS score lambdas0 hessians0 q).2.getD j 0)
    ∧ (∀ q, q < ctx.num_queries_ → ∀ score' : List ℚ,
        score'.length = score.length →
        (∀ j, ctx.query_boundaries_.getD q 0 ≤ j →
          j < ctx.query_boundaries_.getD (q + 1) 0 →
          score'.getD j 0 = score.getD j 0) →
        ∀ j, j < ctx.query_boundaries_.getD (q + 1) 0
            - ctx.query_boundaries_.getD q 0 →
        (GetGradients ctx rng kU kS score' lambdas0 hessians0).1.getD
            (ctx.query_boundaries_.getD q 0 + j) 0
          = (GetGradients ctx rng kU kS score lambdas0 hessians0).1.getD
            (ctx.query_boundaries_.getD q 0 + j) 0
        ∧ (GetGradients ctx rng kU kS score' lambdas0 hessians0).2.getD
            (ctx.query_boundaries_.getD q 0 + j) 0
          = (GetGradients ctx rng kU kS score lambdas0 hessians0).2.getD
            (ctx.query_boundaries_.getD q 0 + j) 0) := by
  obtain ⟨a1, a2, a3, a4, a5⟩ := GetGradients_aux ctx rng kU kS score lambdas0 hessians0
    HkU HkS Hmono HL HH ctx.num_queries_ (le_refl _)
  refine ⟨⟨a1, a2⟩, ?_, ?_, ?_⟩
  · intro j hj
    rcases hj with hj | hj
    · exact a4 j hj
    · exact a3 j hj
  · intro q hq j hj
    exact a5 q hq j hj
  · intro q hq score' hlen hagree j hj
    obtain ⟨b1, b2, b3, b4, b5⟩ := GetGradients_aux ctx rng kU kS score' lambdas0
      hessians0 HkU HkS Hmono HL HH ctx.num_queries_ (le_refl _)
    have hqeq : queryKernelResult ctx rng kU kS score' lambdas0 hessians0 q
        = queryKernelResult ctx rng kU kS score lambdas0 hessians0 q := by
      have hmq := Hmono q hq
      have hsl : (score'.drop (ctx.query_boundaries_.getD q 0)).take
          (ctx.query_boundaries_.getD (q + 1) 0 - ctx.query_boundaries_.getD q 0)
          = (score.drop (ctx.query_boundaries_.getD q 0)).take
            (ctx.query_boundaries_.getD (q + 1) 0 - ctx.query_boundaries_.getD q 0) :=
        take_drop_eq_of_agree score score' _ _ hlen
          (fun k hk1 hk2 => hagree k hk1 (by omega))
      simp only [queryKernelResult]
      rw [hsl]
    have hleft := b5 q hq j hj
    have hright := a5 q hq j hj
    rw [hqeq] at hleft
    exact ⟨hleft.1.trans hright.1.symm, hleft.2.trans hright.2.symm⟩

/-- Witness for C7 on two queries over a three-document dataset. -/
theorem C7_query_slice_independence_witness :
    ((∀ q s c ll ss pl ph, (wKernelU q s c ll ss pl ph).1.length = c
        ∧ (wKernelU q s c ll ss pl ph).2.length = c)
      ∧ (∀ q s c sp ll ss pl ph, (wKernelS q s c sp ll ss pl ph).1.length = c
        ∧ (wKernelS q s c sp ll ss pl ph).2.length = c)
      ∧ (∀ q, q < wCtx7.num_queries_ →
          wCtx7.query_boundaries_.getD q 0 ≤ wCtx7.query_boundaries_.getD (q + 1) 0)
      ∧ wCtx7.query_boundaries_.getD wCtx7.num_queries_ 0
          ≤ ([9, 9, 9] : List ℚ).length
      ∧ wCtx7.query_boundaries_.getD wCtx7.num_queries_ 0
          ≤ ([8, 8, 8] : List ℚ).length)
    ∧ (((GetGradients wCtx7 wRng wKernelU wKernelS [1, 2, 3] [9, 9, 9]
            [8, 8, 8]).1.length = ([9, 9, 9] : List ℚ).length
        ∧ (GetGradients wCtx7 wRng wKernelU wKernelS [1, 2, 3] [9, 9, 9]
            [8, 8, 8]).2.length = ([8, 8, 8] : List ℚ).length)
      ∧ (∀ j, (j < wCtx7.query_boundaries_.getD 0 0
          ∨ wCtx7.query_boundaries_.getD wCtx7.num_queries_ 0 ≤ j) →
          (GetGradients wCtx7 wRng wKernelU wKernelS [1, 2, 3] [9, 9, 9]
              [8, 8, 8]).1.getD j 0 = ([9, 9, 9] : List ℚ).getD j 0
          ∧ (GetGradients wCtx7 wRng wKernelU wKernelS [1, 2, 3] [9, 9, 9]
              [8, 8, 8]).2.getD j 0 = ([8, 8, 8] : List ℚ).getD j 0)
      ∧ (∀ q, q < wCtx7.num_queries_ → ∀ j,
          j < wCtx7.query_boundaries_.getD (q + 1) 0
            - wCtx7.query_boundaries_.getD q 0 →
          (GetGradients wCtx7 wRng wKernelU wKernelS [1, 2, 3] [9, 9, 9]
              [8, 8, 8]).1.getD (wCtx7.query_boundaries_.getD q 0 + j) 0
            = (queryKernelResult wCtx7 wRng wKernelU wKernelS [1, 2, 3] [9, 9, 9]
                [8, 8, 8] q).1.getD j 0
          ∧ (GetGradients wCtx7 wRng wKernelU wKernelS [1, 2, 3] [9, 9, 9]
              [8, 8, 8]).2.getD (wCtx7.query_boundaries_.getD q 0 + j) 0
            = (queryKernelResult wCtx7 wRng wKernelU wKernelS [1, 2, 3] [9, 9, 9]
                [8, 8, 8] q).2.getD j 0)
      ∧ (∀ q, q < wCtx7.num_queries_ → ∀ score' : List ℚ,
          score'.length = ([1, 2, 3] : List ℚ).length →
          (∀ j, wCtx7.query_boundaries_.getD q 0 ≤ j →
            j < wCtx7.query_boundaries_.getD (q + 1) 0 →
            score'.getD j 0 = ([1, 2, 3] : List ℚ).getD j 0) →
          ∀ j, j < wCtx7.query_boundaries_.getD (q + 1) 0
              - wCtx7.query_boundaries_.getD q 0 →
          (GetGradients wCtx7 wRng wKernelU wKernelS score' [9, 9, 9]
              [8, 8, 8]).1.getD (wCtx7.query_boundaries_.getD q 0 + j) 0
            = (GetGradients wCtx7 wRng wKernelU wKernelS [1, 2, 3] [9, 9, 9]
              [8, 8, 8]).1.getD (wCtx7.query_boundaries_.getD q 0 + j) 0
          ∧ (GetGradients wCtx7 wRng wKernelU wKernelS score' [9, 9, 9]
              [8, 8, 8]).2.getD (wCtx7.query_boundaries_.getD q 0 + j) 0
            = (GetGradients wCtx7 wRng wKernelU wKernelS [1, 2, 3] [9, 9, 9]
              [8, 8, 8]).2.getD (wCtx7.query_boundaries_.getD q 0 + j) 0)) := by
  have h1 : ∀ q s c ll ss pl ph, (wKernelU q s c ll ss pl ph).1.length = c
      ∧ (wKernelU q s c ll ss pl ph).2.length = c := by
    intro q s c ll ss pl ph
    exact ⟨by simp [wKernelU], by simp [wKernelU]⟩
  have h2 : ∀ q s c sp ll ss pl ph, (wKernelS q s c sp ll ss pl ph).1.length = c
      ∧ (wKernelS q s c sp ll ss pl ph).2.length = c := by
    intro q s c sp ll ss pl ph
    exact ⟨by simp [wKernelS], by simp [wKernelS]⟩
  have h3 : ∀ q, q < wCtx7.num_queries_ →
      wCtx7.query_boundaries_.getD q 0 ≤ wCtx7.query_boundaries_.getD (q + 1) 0 := by
    intro q hq
    have hq2 : q < 2 := hq
    interval_cases q <;> simp [wCtx7]
  have h4 : wCtx7.query_boundaries_.getD wCtx7.num_queries_ 0
      ≤ ([9, 9, 9] : List ℚ).length := by
    simp [wCtx7]
  have h5 : wCtx7.query_boundaries_.getD wCtx7.num_queries_ 0
      ≤ ([8, 8, 8] : List ℚ).length := by
    simp [wCtx7]
  exact ⟨⟨h1, h2, h3, h4, h5⟩,
    C7_query_slice_independence wCtx7 wRng wKernelU wKernelS [1, 2, 3] [9, 9, 9]
      [8, 8, 8] h1 h2 h3 h4 h5⟩

end RankObj
